import Mathlib

/-!
# apiserver: resolver, dialer and lookup pipeline

A shallow embedding of `resolver.go`, `dialer.go` and the fetch tail of
`ipinfo.go`, with the properties of the specification stated over it.

Conventions.
* `net.IP` is a byte slice: `IP` is a list of byte values.
* Functions of the Go standard library that the code calls (`net.ParseIP`,
  the system resolver, TCP connect, TLS handshake, regular expressions) are
  inputs of the model: their answers are supplied by an environment record.
* Multiple return values `(conn, err)` become one inductive result.
-/

namespace Apiserver

/-! ## `net.IP` -/

/-- A `net.IP`: a slice of bytes (4 bytes for the short IPv4 form, 16 bytes
for IPv6 and for the long IPv4 form). -/
abbrev IP := List Nat

/-- The Go library's `isZeros`: every byte is zero. -/
def isZeros (p : List Nat) : Bool := p.all (fun b => b == 0)

/-- The Go library's `IP.To4`: the four-byte form of an IPv4 address, `none`
(Go `nil`) when the address is not an IPv4 address. A 16-byte address is IPv4
when it carries the `::ffff:a.b.c.d` mapping. -/
def To4 (ip : IP) : Option IP :=
  if ip.length = 4 then some ip
  else if ip.length = 16 ∧ isZeros (ip.take 10) = true ∧ ip.getD 10 0 = 255 ∧ ip.getD 11 0 = 255 then
    some (ip.drop 12)
  else none

/-- An address counts as IPv4 exactly when `To4` is not nil; this is the test
the dialer uses for the address family. -/
def isIPv4 (ip : IP) : Bool := (To4 ip).isSome

/-- Reserved-address predicate, `resolver.go` lines 122-161. A Go `switch`
case whose inner `switch` matches nothing leaves the outer `switch` and reaches
the final `return false`. -/
def IsReservedIP (ip : IP) : Bool :=
  match To4 ip with
  | some [b0, b1, b2, _] =>
    match b0 with
    | 10 => true
    | 100 => decide (b1 ≥ 64) && decide (b1 ≤ 127)
    | 127 => true
    | 169 => decide (b1 = 254)
    | 172 => decide (b1 ≥ 16) && decide (b1 ≤ 31)
    | 192 =>
      match b1 with
      | 0 =>
        match b2 with
        | 0 => true
        | 2 => true
        | _ => false
      | 18 => true
      | 19 => true
      | 51 => decide (b2 = 100)
      | 88 => decide (b2 = 99)
      | 168 => true
      | _ => false
    | 203 => decide (b1 = 0) && decide (b2 = 113)
    | 224 => true
    | 240 => true
    | _ => false
  | _ => false

/-- The blocks listed by the specification, over the four bytes of an IPv4
address: 10/8, 100.64/10, 127/8, 169.254/16, 172.16/12, 192.0.0/24,
192.0.2/24, 192.18/15, 192.51.100/24, 192.88.99/24, 192.168/16,
203.0.113/24, 224/4, 240/4. -/
def inListedBlocks (b0 b1 b2 : Nat) : Bool :=
  decide (b0 = 10) ||
  (decide (b0 = 100) && decide (64 ≤ b1) && decide (b1 ≤ 127)) ||
  decide (b0 = 127) ||
  (decide (b0 = 169) && decide (b1 = 254)) ||
  (decide (b0 = 172) && decide (16 ≤ b1) && decide (b1 ≤ 31)) ||
  (decide (b0 = 192) && decide (b1 = 0) && decide (b2 = 0)) ||
  (decide (b0 = 192) && decide (b1 = 0) && decide (b2 = 2)) ||
  (decide (b0 = 192) && decide (18 ≤ b1) && decide (b1 ≤ 19)) ||
  (decide (b0 = 192) && decide (b1 = 51) && decide (b2 = 100)) ||
  (decide (b0 = 192) && decide (b1 = 88) && decide (b2 = 99)) ||
  (decide (b0 = 192) && decide (b1 = 168)) ||
  (decide (b0 = 203) && decide (b1 = 0) && decide (b2 = 113)) ||
  (decide (224 ≤ b0) && decide (b0 ≤ 239)) ||
  (decide (240 ≤ b0) && decide (b0 ≤ 255))

/-! ## `dialer.go` -/

/-- The fields of `TCPDialer` that decide the behaviour of a dial.
`KeepAlive` and `Timeout` are `time.Duration` values (nanoseconds), `Level` is
a Go `int`. -/
structure TCPDialer where
  KeepAlive : Int
  Timeout : Int
  Level : Int
  RejectIntranet : Bool
  PreferIPv6 : Bool

/-- The errors a dial can return. `connect i ip` and `handshake i ip` stand for
the error value returned by `net.DialTCPContext`, respectively
`tlsConn.Handshake`, for the candidate at index `i`. -/
inductive DialError where
  | splitHostPort
  | resolve (msg : String)
  | invalidDNSRecord (address : String)
  | intranetRejected (ip : IP)
  | connect (i : Nat) (ip : IP)
  | handshake (i : Nat) (ip : IP)
  deriving DecidableEq, Repr

/-- An established connection: the remote address it was made to, the index of
the candidate, what the dialer did to the keepalive of the underlying TCP
socket (`none`: it made no call, the socket is as the library opened it;
`some p`: it called `SetKeepAlive(true)` and `SetKeepAlivePeriod(p)`) and
whether the connection is wrapped in TLS. -/
structure Conn where
  remote : IP
  port : Int
  index : Nat
  keepAlive : Option Int
  tls : Bool
  deriving DecidableEq, Repr

/-- The outcomes of the individual attempts: whether the TCP connect to the
candidate at index `i` succeeds, and whether the TLS handshake on it does. -/
structure Network where
  connect : Nat → IP → Bool
  handshake : Nat → IP → Bool

/-- Runtime panics of the racing path. -/
inductive Crash where
  | sliceBounds (bound : Int)
  | makechanSize (size : Int)
  deriving DecidableEq, Repr

/-- What a dial function gives back: `(conn, nil)`, `(nil, err)`,
`(nil, nil)`, a runtime panic, or a receive on the result channel that never
completes. -/
inductive Outcome where
  | conn (c : Conn)
  | error (e : DialError)
  | nothing
  | crash (p : Crash)
  | blocked
  deriving DecidableEq, Repr

/-- One step of the serial loop as seen from outside. -/
inductive Attempt where
  | tcp (i : Nat)
  | tls (i : Nat)
  deriving DecidableEq, Repr

/-- The loop of `dialSerial` (lines 101-127) from index `i` on. `len` is
`len(ips)`, `err` the current value of the named result `err`. The second
component lists the attempts made, in order. -/
def dialSerialLoop (nw : Network) (port : Int) (tlsConfig : Bool) (len : Nat) :
    Nat → List IP → Option DialError → Outcome × List Attempt
  | _, [], err =>
    match err with
    | some e => (Outcome.error e, [])
    | none => (Outcome.nothing, [])
  | i, ip :: rest, _ =>
    if nw.connect i ip = false then
      if (i : Int) < (len : Int) - 1 then
        let r := dialSerialLoop nw port tlsConfig len (i + 1) rest (some (DialError.connect i ip))
        (r.1, Attempt.tcp i :: r.2)
      else (Outcome.error (DialError.connect i ip), [Attempt.tcp i])
    else if tlsConfig = false then
      (Outcome.conn ⟨ip, port, i, none, false⟩, [Attempt.tcp i])
    else if nw.handshake i ip = false then
      if (i : Int) < (len : Int) - 1 then
        let r := dialSerialLoop nw port tlsConfig len (i + 1) rest (some (DialError.handshake i ip))
        (r.1, Attempt.tcp i :: Attempt.tls i :: r.2)
      else (Outcome.error (DialError.handshake i ip), [Attempt.tcp i, Attempt.tls i])
    else (Outcome.conn ⟨ip, port, i, none, true⟩, [Attempt.tcp i, Attempt.tls i])

/-- Serial dial, `TCPDialer.dialSerial` (lines 100-129). The receiver `d`
contributes `LocalAddr` and `Control` only, which do not decide the result. -/
def dialSerial (_d : TCPDialer) (nw : Network) (ips : List IP) (port : Int)
    (tlsConfig : Bool) : Outcome × List Attempt :=
  dialSerialLoop nw port tlsConfig ips.length 0 ips none

/-- The local type `dialResult` of `dialParallel`. -/
structure dialResult where
  Conn : Option Conn
  Err : Option DialError
  deriving DecidableEq, Repr

/-- The body of one racing worker (lines 146-172) for the candidate at index
`i`: the value it sends on the channel. -/
def worker (d : TCPDialer) (nw : Network) (port : Int) (tlsConfig : Bool) (i : Nat) (ip : IP) :
    dialResult :=
  if nw.connect i ip = false then ⟨none, some (DialError.connect i ip)⟩
  else
    let ka : Option Int := if d.KeepAlive > 0 then some d.KeepAlive else none
    if tlsConfig = false then ⟨some ⟨ip, port, i, ka, false⟩, none⟩
    else if nw.handshake i ip = false then ⟨none, some (DialError.handshake i ip)⟩
    else ⟨some ⟨ip, port, i, ka, true⟩, none⟩

/-- The background drainer (lines 180-188): it receives `count` further results
and closes every connection among them. Returns the results it received. -/
def drain : Nat → List dialResult → List dialResult
  | 0, _ => []
  | _ + 1, [] => []
  | count + 1, r1 :: rest => r1 :: drain count rest

/-- A racing dial as seen from outside: the outcome for the caller, the number
of workers launched, the results the caller received and the results the
drainer received. -/
structure ParallelRun where
  outcome : Outcome
  launched : Nat
  received : List dialResult
  drained : List dialResult
  deriving DecidableEq, Repr

/-- The collecting loop (lines 176-193). `todo` is `level - j`, `lane` the
results still to arrive in arrival order, `r` the variable `r`. -/
def collect : Nat → List dialResult → dialResult → Outcome × List dialResult × List dialResult
  | 0, _, r =>
    match r.Err with
    | some e => (Outcome.error e, [], [])
    | none => (Outcome.nothing, [], [])
  | _ + 1, [], _ => (Outcome.blocked, [], [])
  | todo + 1, r :: lane, _ =>
    match r.Err with
    | none =>
      match r.Conn with
      | some c => (Outcome.conn c, [r], drain todo lane)
      | none => (Outcome.nothing, [r], drain todo lane)
    | some _ =>
      let rest := collect todo lane r
      (rest.1, r :: rest.2.1, rest.2.2)

/-- The results on the channel in arrival order: `arrival` lists worker
indices, worker `i` of the `level` launched ones dials `ips[i]`. -/
def laneOf (d : TCPDialer) (nw : Network) (ips : List IP) (port : Int) (tlsConfig : Bool)
    (level : Nat) (arrival : List Nat) : List dialResult :=
  arrival.filterMap (fun i =>
    if i < level then (ips.get? i).map (worker d nw port tlsConfig i) else none)

/-- Lines 145-193 of `dialParallel`: launch `level` workers on the trimmed
sequence and collect their results. -/
def raceWorkers (d : TCPDialer) (nw : Network) (ips : List IP) (port : Int) (tlsConfig : Bool)
    (level : Nat) (arrival : List Nat) : ParallelRun :=
  let c := collect level (laneOf d nw ips port tlsConfig level arrival) ⟨none, none⟩
  ⟨c.1, level, c.2.1, c.2.2⟩

/-- Racing dial, `TCPDialer.dialParallel` (lines 131-193). `arrival` is the
order in which the workers' results reach the channel, given by worker index.
Slicing `ips[:level]` with a negative `level` panics, as does `make` of a
channel with negative size. -/
def dialParallel (d : TCPDialer) (nw : Network) (ips : List IP) (port : Int)
    (tlsConfig : Bool) (arrival : List Nat) : ParallelRun :=
  if (ips.length : Int) > d.Level then
    if d.Level < 0 then ⟨Outcome.crash (Crash.sliceBounds d.Level), 0, [], []⟩
    else raceWorkers d nw (ips.take d.Level.toNat) port tlsConfig d.Level.toNat arrival
  else
    if (ips.length : Int) < 0 then ⟨Outcome.crash (Crash.makechanSize ips.length), 0, [], []⟩
    else raceWorkers d nw ips port tlsConfig ips.length arrival

/-- The exchange `ips[0], ips[pos] = ips[pos], ips[0]` with
`pos := len(ips) - 1`. -/
def swapEnds (ips : List IP) : List IP :=
  let pos := ips.length - 1
  match ips.get? 0, ips.get? pos with
  | some a, some z => (ips.set 0 z).set pos a
  | _, _ => ips

/-- The candidate ordering of `dialContext` (the `switch len(ips)` of lines
49-70; the empty case returns an error before any ordering is used). -/
def reorder (preferIPv6 : Bool) (ips : List IP) : List IP :=
  match ips with
  | [] => ips
  | [_] => ips
  | first :: _ =>
    if preferIPv6 = false then
      if (To4 first).isNone then
        if ((ips.getD (ips.length - 1) []) |> To4).isSome then swapEnds ips else ips
      else ips
    else
      if (To4 first).isSome then
        if ((ips.getD (ips.length - 1) []) |> To4).isNone then swapEnds ips else ips
      else ips

/-- Which path a dial took, with what that path produced. -/
inductive DialRun where
  | failed (e : DialError)
  | serial (r : Outcome × List Attempt)
  | racing (r : ParallelRun)

/-- The outcome of a dial for its caller. -/
def DialRun.outcome : DialRun → Outcome
  | DialRun.failed e => Outcome.error e
  | DialRun.serial r => r.1
  | DialRun.racing r => r.outcome

/-- The dial, `TCPDialer.dialContext` (lines 38-98). `split` is the answer of
`net.SplitHostPort(address)` with the port already through `strconv.Atoi`
(`none` on error), `resolved` the answer of `d.Resolver.LookupIP(ctx, host)`.
The deadline derived from `Timeout` acts through the outcomes in `nw`. -/
def dialContext (d : TCPDialer) (nw : Network) (address : String)
    (split : Option (String × Int)) (resolved : Except String (List IP))
    (tlsConfig : Bool) (arrival : List Nat) : DialRun :=
  match split with
  | none => DialRun.failed DialError.splitHostPort
  | some (_, port) =>
    match resolved with
    | Except.error msg => DialRun.failed (DialError.resolve msg)
    | Except.ok ips0 =>
      if ips0.length = 0 then DialRun.failed (DialError.invalidDNSRecord address)
      else
        let ips := reorder d.PreferIPv6 ips0
        if d.RejectIntranet = true ∧ IsReservedIP (ips.getD 0 []) = true then
          DialRun.failed (DialError.intranetRejected (ips.getD 0 []))
        else if d.Level = 0 ∨ d.Level = 1 then
          DialRun.serial (dialSerial d nw ips port tlsConfig)
        else
          let ips2 := if ips.length = 1 then ips ++ [ips.getD 0 []] else ips
          DialRun.racing (dialParallel d nw ips2 port tlsConfig arrival)

/-- Membership in the preferred address family: IPv4 (`To4` not nil) when
`PreferIPv6` is false, the other addresses when it is true. -/
def preferred (preferIPv6 : Bool) (ip : IP) : Bool :=
  if preferIPv6 = true then !(isIPv4 ip) else isIPv4 ip

/-- The address 2001:db8::1. -/
def ip6a : IP := [0x20, 0x01, 0x0d, 0xb8, 0, 0, 0, 0, 0, 0, 0, 0, 0, 0, 0, 1]

/-- The address 2001:db8::2. -/
def ip6b : IP := [0x20, 0x01, 0x0d, 0xb8, 0, 0, 0, 0, 0, 0, 0, 0, 0, 0, 0, 2]

/-- The address 1.1.1.1. -/
def ip1111 : IP := [1, 1, 1, 1]

/-- Candidate `i` succeeds: its TCP connect does and, when a TLS configuration
is given, its handshake does too. -/
def succeeds (nw : Network) (tlsConfig : Bool) (i : Nat) (ip : IP) : Bool :=
  nw.connect i ip && (!tlsConfig || nw.handshake i ip)

/-- The failure of a candidate that does not succeed: its connect error, or
its handshake error when the connect went through. -/
def failureOf (nw : Network) (i : Nat) (ip : IP) : DialError :=
  if nw.connect i ip = false then DialError.connect i ip else DialError.handshake i ip

/-- The attempts one candidate costs: a TCP connect, then a handshake when the
connect succeeded and a TLS configuration is given. -/
def attemptsOf (nw : Network) (tlsConfig : Bool) (i : Nat) (ip : IP) : List Attempt :=
  if nw.connect i ip = false then [Attempt.tcp i]
  else if tlsConfig = false then [Attempt.tcp i]
  else [Attempt.tcp i, Attempt.tls i]

/-- The attempts for the first `n` candidates of a sequence whose first entry
has index `i`, candidate by candidate in sequence order. -/
def attemptsUpTo (nw : Network) (tlsConfig : Bool) : Nat → List IP → Nat → List Attempt
  | _, _, 0 => []
  | _, [], _ + 1 => []
  | i, ip :: rest, n + 1 => attemptsOf nw tlsConfig i ip ++ attemptsUpTo nw tlsConfig (i + 1) rest n

/-- A dialer with `RejectIntranet` on, serial (`Level = 0`), no keepalive. -/
def guardedDialer : TCPDialer := ⟨0, 0, 0, true, false⟩

/-- A network in which only the candidate at index 1 accepts the connect. -/
def onlySecondAnswers : Network := ⟨fun i _ => decide (i = 1), fun _ _ => true⟩

/-- A network in which every connect and every handshake succeeds. -/
def allAnswer : Network := ⟨fun _ _ => true, fun _ _ => true⟩

/-- A network in which the connect to the candidate at index 0 fails and
every other connect and every handshake succeeds. -/
def firstRefuses : Network := ⟨fun i _ => decide (i ≠ 0), fun _ _ => true⟩

/-- The configuration of `main.go` with `Level` set to `-1`. -/
def negativeLevelDialer : TCPDialer := ⟨30000000000, 30000000000, -1, false, false⟩

/-- The dialer built in `main.go`: keepalive 30 s, timeout 30 s, `Level` 1. -/
def mainDialer : TCPDialer := ⟨30000000000, 30000000000, 1, false, false⟩

/-! ## `resolver.go` -/

/-- A value stored in the DNS cache (a Go `interface{}`): an IP list, a CNAME
string, or a value of some other type. -/
inductive CacheValue where
  | ips (l : List IP)
  | cname (target : String)
  | other (descr : String)
  deriving DecidableEq, Repr

/-- A cache entry: the value and its deadline on the wall clock. -/
structure CacheEntry where
  value : CacheValue
  expire : Nat
  deriving DecidableEq, Repr

/-- Modelled from the spec: the LRU-TTL cache of the library `lrucache`, whose
code is not part of the sources. A key holds at most one entry; an entry is
fresh strictly before its deadline. Capacity eviction is left out: a lookup
reads the cache before its single write. -/
abbrev Cache := String → Option CacheEntry

/-- Modelled from the spec: `GetNotStale(key)`, a miss for an absent or an
expired entry. -/
def Cache.GetNotStale (c : Cache) (now : Nat) (key : String) : Option CacheValue :=
  match c key with
  | some e => if now < e.expire then some e.value else none
  | none => none

/-- Modelled from the spec: `Set(key, value, deadline)`. -/
def Cache.Set (c : Cache) (key : String) (value : CacheValue) (expire : Nat) : Cache :=
  fun k => if k = key then some ⟨value, expire⟩ else c k

/-- The resolver. `ParseIP` is `net.ParseIP`, `LookupIPAddr` the embedded
system resolver; `DNSCache` and `static` may be nil. `DNSTTL` is a duration in
the unit of the clock. -/
structure Resolver where
  ParseIP : String → Option IP
  LookupIPAddr : String → Except String (List IP)
  DNSCache : Option Cache
  DNSTTL : Int
  static : Option (String → Option (List IP))

/-- What a lookup consulted besides the static map. -/
inductive Consult where
  | cacheGet (name : String)
  | cacheSet (name : String)
  | system (name : String)
  deriving DecidableEq, Repr

/-- The errors of a lookup. -/
inductive LookupError where
  | cannotConvert (descr : String)
  | system (msg : String)
  deriving DecidableEq, Repr

/-- A returned lookup: the `(ips, err)` pair, the resolver afterwards and what
was consulted, in order. -/
structure LookupReturn where
  result : Except LookupError (List IP)
  after : Resolver
  consulted : List Consult

/-- Reading `r.static[name]`: the stored sequence and the `ok` flag in one
option; a nil map has no entries. -/
def Resolver.staticGet (r : Resolver) (name : String) : Option (List IP) :=
  match r.static with
  | some m => m name
  | none => none

/-- Adding a record, `Resolver.AddStaticRecord` (lines 74-79). -/
def AddStaticRecord (r : Resolver) (name : String) (ips : List IP) : Resolver :=
  let m : String → Option (List IP) :=
    match r.static with
    | some m => m
    | none => fun _ => none
  { r with static := some (fun k => if k = name then some ips else m k) }

/-- Membership test, `Resolver.IsStaticRecord` (lines 81-84). -/
def IsStaticRecord (r : Resolver) (name : String) : Bool := (r.staticGet name).isSome

/-- Prefix the record of what a lookup consulted. -/
def LookupReturn.after_consulting (c : List Consult) (x : LookupReturn) : LookupReturn :=
  { x with consulted := c ++ x.consulted }

/-- The cached lookup, `Resolver.lookupIP` (lines 86-120). The Go function
calls itself on a cached CNAME without any bound; `fuel` bounds the depth of
calls here, and `none` says the call did not return within it. -/
def lookupIP (r : Resolver) (now : Nat) : Nat → String → Option LookupReturn
  | 0, _ => none
  | fuel + 1, name =>
    let probe : List Consult := if r.DNSCache.isSome then [Consult.cacheGet name] else []
    match r.DNSCache.bind (fun c => c.GetNotStale now name) with
    | some (CacheValue.ips l) => some ⟨Except.ok l, r, probe⟩
    | some (CacheValue.cname target) =>
      (lookupIP r now fuel target).map (LookupReturn.after_consulting probe)
    | some (CacheValue.other descr) =>
      some ⟨Except.error (LookupError.cannotConvert descr), r, probe⟩
    | none =>
      match r.ParseIP name with
      | some ip => some ⟨Except.ok [ip], r, probe⟩
      | none =>
        match r.LookupIPAddr name with
        | Except.error msg =>
          some ⟨Except.error (LookupError.system msg), r, probe ++ [Consult.system name]⟩
        | Except.ok ips =>
          match r.DNSCache with
          | some c =>
            if r.DNSTTL > 0 ∧ ips.length > 0 then
              some ⟨Except.ok ips,
                { r with DNSCache := some (c.Set name (CacheValue.ips ips) (now + r.DNSTTL.toNat)) },
                probe ++ [Consult.system name, Consult.cacheSet name]⟩
            else some ⟨Except.ok ips, r, probe ++ [Consult.system name]⟩
          | none => some ⟨Except.ok ips, r, probe ++ [Consult.system name]⟩

/-- The lookup, `Resolver.LookupIP` (lines 25-30). -/
def LookupIP (r : Resolver) (now : Nat) (fuel : Nat) (name : String) : Option LookupReturn :=
  if ((r.staticGet name).getD []).length > 0 then
    some ⟨Except.ok ((r.staticGet name).getD []), r, []⟩
  else lookupIP r now fuel name

/-- A resolver with an empty DNS cache, no static map, a system resolver that
knows no name and a `ParseIP` that accepts no text. -/
def bareResolver : Resolver :=
  ⟨fun _ => none, fun _ => Except.error "no such host", some (fun _ => none), 600, none⟩

/-- The static map holds an empty record for `x`, the DNS cache a fresh IP
list for it. -/
def emptyRecordResolver : Resolver :=
  { AddStaticRecord bareResolver "x" [] with
    DNSCache := some (fun k => if k = "x" then some ⟨CacheValue.ips [[1, 2, 3, 4]], 100⟩ else none) }

/-- The static map holds `b -> [1.2.3.4]`; the DNS cache holds the fresh
entries `a -> CNAME b` and `b -> [5.6.7.8]`. -/
def cnameResolver : Resolver :=
  { AddStaticRecord bareResolver "b" [[1, 2, 3, 4]] with
    DNSCache := some (fun k =>
      if k = "a" then some ⟨CacheValue.cname "b", 100⟩
      else if k = "b" then some ⟨CacheValue.ips [[5, 6, 7, 8]], 100⟩
      else none) }

/-! ## `ipinfo.go` -/

/-- The parsed answer, `IpinfoItem`. -/
structure IpinfoItem where
  Location : String
  ISP : String
  deriving DecidableEq, Repr

/-- The body of an `http.Response`. Callers that share the response share this
one stream: the bytes not yet read, and whether `Close` was called. -/
structure Body where
  unread : String
  closed : Bool
  deriving DecidableEq, Repr

/-- What `ipinfoSearch` gives back: `(item, nil)`, `(nil, err)`, or a panic on
indexing the match. -/
inductive SearchReturn where
  | item (i : IpinfoItem)
  | error (msg : String)
  | crash
  deriving DecidableEq, Repr

/-- The library call `ioutil.ReadAll(resp.Body)`: it delivers the bytes not yet
read and leaves none; reading a closed body is an error. -/
def ReadAll (b : Body) : Except String String × Body :=
  if b.closed = true then (Except.error "http: read on closed response body", b)
  else (Except.ok b.unread, { b with unread := "" })

/-- One call of `IpinfoHandler.ipinfoSearch` (lines 77-117) from the return of
`Singleflight.Do` on; the request built in lines 78-85 is taken to be valid.
`flightErr` is the `err` that `Do` returned, `body` the current state of the
body of the response `v` that `Do` returned. `regex` is
`h.Regex.FindStringSubmatch`. The deferred `resp.Body.Close()` runs on every
return after line 95. -/
def ipinfoSearch (regex : String → Option (List String)) (flightErr : Option String)
    (body : Body) : SearchReturn × Body :=
  match flightErr with
  | some msg => (SearchReturn.error msg, body)
  | none =>
    match ReadAll body with
    | (Except.error msg, b) => (SearchReturn.error msg, { b with closed := true })
    | (Except.ok data, b) =>
      match regex data with
      | none => (SearchReturn.error "empty", { b with closed := true })
      | some (_ :: loc :: isp :: _) => (SearchReturn.item ⟨loc, isp⟩, { b with closed := true })
      | some _ => (SearchReturn.crash, { b with closed := true })

/-- The given number of callers continue one after the other, each on the body
as the callers before it left it. -/
def runCallers (regex : String → Option (List String)) (flightErr : Option String) :
    Nat → Body → List SearchReturn
  | 0, _ => []
  | n + 1, body =>
    let r := ipinfoSearch regex flightErr body
    r.1 :: runCallers regex flightErr n r.2

/-- Modelled from the spec: `Singleflight.Do` of the library `singleflight`,
whose code is not part of the sources. Callers that enter `Do` with one key
before the function returns share one run of it and all receive the same
`(v, err)`, here the same response. `roundTrip` is the answer of
`h.Transport.RoundTrip(req)`: an error or a response with the given body. The
result is the number of round trips made and what each caller's
`ipinfoSearch` returns, under the schedule in which each caller finishes
before the next continues. -/
def coalescedSearch (regex : String → Option (List String)) (roundTrip : Except String String)
    (callers : Nat) : Nat × List SearchReturn :=
  match roundTrip with
  | Except.error msg => (1, runCallers regex (some msg) callers ⟨"", false⟩)
  | Except.ok data => (1, runCallers regex none callers ⟨data, false⟩)

/-- A stand-in for the configured regular expression: it matches the one body
`location=US;isp=ACME` and nothing else. -/
def sampleRegex (s : String) : Option (List String) :=
  if s = "location=US;isp=ACME" then some [s, "US", "ACME"] else none

/-- The blocks the code classifies, over the first three bytes: the listed
blocks with 224/8 and 240/8 in the place of 224/4 and 240/4. -/
def inCodedBlocks (b0 b1 b2 : Nat) : Bool :=
  decide (b0 = 10) ||
  (decide (b0 = 100) && decide (64 ≤ b1) && decide (b1 ≤ 127)) ||
  decide (b0 = 127) ||
  (decide (b0 = 169) && decide (b1 = 254)) ||
  (decide (b0 = 172) && decide (16 ≤ b1) && decide (b1 ≤ 31)) ||
  (decide (b0 = 192) && decide (b1 = 0) && decide (b2 = 0)) ||
  (decide (b0 = 192) && decide (b1 = 0) && decide (b2 = 2)) ||
  (decide (b0 = 192) && decide (18 ≤ b1) && decide (b1 ≤ 19)) ||
  (decide (b0 = 192) && decide (b1 = 51) && decide (b2 = 100)) ||
  (decide (b0 = 192) && decide (b1 = 88) && decide (b2 = 99)) ||
  (decide (b0 = 192) && decide (b1 = 168)) ||
  (decide (b0 = 203) && decide (b1 = 0) && decide (b2 = 113)) ||
  decide (b0 = 224) ||
  decide (b0 = 240)

/-- The connections the background drainer closes (lines 183-187): every
non-nil `Conn` among the results it received. -/
def ParallelRun.closed (run : ParallelRun) : List Conn :=
  run.drained.filterMap (fun r1 => r1.Conn)

/-- The results of the workers of a race over `ips`, listed in the order
`arrival` in which they reach the channel. -/
def arrivedResults (d : TCPDialer) (nw : Network) (ips : List IP) (port : Int)
    (tlsConfig : Bool) (arrival : List Nat) : List dialResult :=
  arrival.map (fun i => worker d nw port tlsConfig i (ips.getD i []))

/-- Two candidates that accept the connect at index 1 only, raced at `Level` 2
with the result of worker 1 arriving first. -/
def raceDialer : TCPDialer := ⟨30000000000, 0, 2, false, false⟩

/-- The name reached from `name` after exactly `k` fresh CNAME entries of the
DNS cache; `none` when the chain of CNAME entries is shorter than `k`. -/
def followCNAME (r : Resolver) (now : Nat) : Nat → String → Option String
  | 0, name => some name
  | k + 1, name =>
    match r.DNSCache.bind (fun c => c.GetNotStale now name) with
    | some (CacheValue.cname target) => followCNAME r now k target
    | _ => none

/-- The DNS cache holds the fresh CNAME cycle `a -> b`, `b -> a` and the name
`c` whose CNAME is itself. -/
def cycleResolver : Resolver :=
  { bareResolver with
    DNSCache := some (fun k =>
      if k = "a" then some ⟨CacheValue.cname "b", 100⟩
      else if k = "b" then some ⟨CacheValue.cname "a", 100⟩
      else if k = "c" then some ⟨CacheValue.cname "c", 100⟩
      else none) }

/-- The DNS cache holds a fresh chain of nine CNAME entries
`n0 -> n1 -> ... -> n9`; `n9` has no entry. -/
def chainResolver : Resolver :=
  { bareResolver with
    DNSCache := some (fun k =>
      if k = "n0" then some ⟨CacheValue.cname "n1", 100⟩
      else if k = "n1" then some ⟨CacheValue.cname "n2", 100⟩
      else if k = "n2" then some ⟨CacheValue.cname "n3", 100⟩
      else if k = "n3" then some ⟨CacheValue.cname "n4", 100⟩
      else if k = "n4" then some ⟨CacheValue.cname "n5", 100⟩
      else if k = "n5" then some ⟨CacheValue.cname "n6", 100⟩
      else if k = "n6" then some ⟨CacheValue.cname "n7", 100⟩
      else if k = "n7" then some ⟨CacheValue.cname "n8", 100⟩
      else if k = "n8" then some ⟨CacheValue.cname "n9", 100⟩
      else none) }

/-! ## `googlepay.go` and the handlers of `ipinfo.go` -/

/-- What building and performing one upstream GET comes to: `http.NewRequest`
fails, `Transport.RoundTrip` fails, `ioutil.ReadAll` of the body fails, or the
whole body is read. -/
inductive Fetch where
  | requestError (msg : String)
  | roundTripError (msg : String)
  | readError (msg : String)
  | body (data : String)
  deriving DecidableEq, Repr

/-- The error a fetch ends in, `none` when the body was read. -/
def Fetch.failure : Fetch → Option String
  | Fetch.requestError msg => some msg
  | Fetch.roundTripError msg => some msg
  | Fetch.readError msg => some msg
  | Fetch.body _ => none

/-- Whether the fetch reached the upstream: a request that cannot be built
never leaves. -/
def Fetch.sent : Fetch → Bool
  | Fetch.requestError _ => false
  | _ => true

/-- One search hit, `GoogleplaySearchItem`. -/
structure GoogleplaySearchItem where
  PackageName : String
  Title : String
  deriving DecidableEq, Repr

/-- A value stored in `SearchCache` (a Go `interface{}`): the handlers store
strings, `googleplaySearch` stores item lists. -/
inductive SearchValue where
  | str (s : String)
  | items (l : List GoogleplaySearchItem)
  deriving DecidableEq, Repr

/-- An entry of `SearchCache`: the value and its deadline. -/
structure SearchEntry where
  value : SearchValue
  expire : Nat
  deriving DecidableEq, Repr

/-- Modelled from the spec: the LRU-TTL cache of the library `lrucache` as the
lookup handler uses it, with the same reading as `Cache`. -/
abbrev SearchCache := String → Option SearchEntry

/-- Modelled from the spec: `GetNotStale(key)` on the search cache. -/
def SearchCache.GetNotStale (c : SearchCache) (now : Nat) (key : String) : Option SearchValue :=
  match c key with
  | some e => if now < e.expire then some e.value else none
  | none => none

/-- Modelled from the spec: `Set(key, value, deadline)` on the search cache. -/
def SearchCache.Set (c : SearchCache) (key : String) (value : SearchValue) (expire : Nat) :
    SearchCache :=
  fun k => if k = key then some ⟨value, expire⟩ else c k

/-- The lookup handler. `SearchRegex` is
`h.SearchRegex.FindAllStringSubmatch(_, -1)`; `SearchTTL` is in the unit of the
clock. -/
structure LookupHandler where
  SearchRegex : String → List (List String)
  SearchTTL : Nat
  SearchCache : SearchCache

/-- The surroundings of the lookup handler: the library function
`url.PathEscape` and, for a query and a language, what the GET of
`googleplaySearch` comes to when it is performed. One caller at a time:
`Singleflight.Do` runs the function it is given. -/
structure Play where
  PathEscape : String → String
  get : String → String → Fetch

/-- What `googleplaySearch` gives back: `(items, nil)`, `(nil, err)`, or a
runtime panic. -/
inductive SearchResult where
  | items (l : List GoogleplaySearchItem)
  | error (msg : String)
  | crash (what : String)
  deriving DecidableEq, Repr

/-- The loop of lines 171-175: each match yields `group[1]`, `group[2]`;
`none` when a match has fewer than three entries and the index panics. -/
def itemsOfMatches : List (List String) → Option (List GoogleplaySearchItem)
  | [] => some []
  | (_ :: name :: title :: _) :: rest =>
    (itemsOfMatches rest).map (fun l => ⟨name, title⟩ :: l)
  | _ :: _ => none

/-- A returned search: the result, the handler afterwards, and the
`(query, lang)` pairs for which a GET reached the upstream. -/
structure SearchRun where
  result : SearchResult
  after : LookupHandler
  fetched : List (String × String)

/-- The search, `LookupHandler.googleplaySearch` (lines 140-183). -/
def googleplaySearch (h : LookupHandler) (env : Play) (now : Nat) (query lang : String) :
    SearchRun :=
  match h.SearchCache.GetNotStale now (query ++ lang) with
  | some (SearchValue.items l) => ⟨SearchResult.items l, h, []⟩
  | some (SearchValue.str _) =>
    ⟨SearchResult.crash "interface conversion: interface \x7b\x7d is string", h, []⟩
  | none =>
    match env.get query lang with
    | Fetch.requestError msg => ⟨SearchResult.error msg, h, []⟩
    | Fetch.roundTripError msg => ⟨SearchResult.error msg, h, [(query, lang)]⟩
    | Fetch.readError msg => ⟨SearchResult.error msg, h, [(query, lang)]⟩
    | Fetch.body data =>
      match itemsOfMatches (h.SearchRegex data) with
      | none => ⟨SearchResult.crash "index out of range", h, [(query, lang)]⟩
      | some items =>
        ⟨SearchResult.items items,
          { h with SearchCache :=
              h.SearchCache.Set (query ++ lang) (SearchValue.items items) (now + h.SearchTTL) },
          [(query, lang)]⟩

/-- The request envelope, `LookupRequest`. -/
structure LookupRequest where
  PackageName : String
  Title : String
  GEO : String
  deriving DecidableEq, Repr

/-- The response envelope, `LookupResponse`; an empty string field is left out
of the JSON. -/
structure LookupResponse where
  Status : Int
  Error : String
  PackageName : String
  Title : String
  GEO : String
  deriving DecidableEq, Repr

/-- What a handler does with a request: it writes a response, or panics. -/
inductive Answer where
  | response (r : LookupResponse)
  | crash (what : String)
  deriving DecidableEq, Repr

/-- A handled request: the answer, the handler afterwards, the GETs that
reached the upstream. -/
structure HandlerRun where
  answer : Answer
  after : LookupHandler
  fetched : List (String × String)

/-- The error answer, `LookupHandler.Error` (lines 40-45). -/
def LookupHandler.Error (msg : String) : LookupResponse := ⟨204, msg, "", "", ""⟩

/-- The handler `LookupHandler.LookupTitle` (lines 47-89). `decoded` is the
outcome of `json.Unmarshal` on the post body. -/
def LookupTitle (h : LookupHandler) (env : Play) (now : Nat)
    (decoded : Except String LookupRequest) : HandlerRun :=
  match decoded with
  | Except.error msg => ⟨Answer.response (LookupHandler.Error msg), h, []⟩
  | Except.ok req =>
    let key := "title:" ++ req.Title ++ ":" ++ req.GEO
    match h.SearchCache.GetNotStale now key with
    | some (SearchValue.str pkgName) =>
      ⟨Answer.response ⟨if pkgName = "" then 204 else 200, "", pkgName, "", ""⟩, h, []⟩
    | some (SearchValue.items _) =>
      ⟨Answer.crash "interface conversion: interface \x7b\x7d is []main.GoogleplaySearchItem", h, []⟩
    | none =>
      let s := googleplaySearch h env now (env.PathEscape req.Title) req.GEO
      match s.result with
      | SearchResult.error msg => ⟨Answer.response (LookupHandler.Error msg), s.after, s.fetched⟩
      | SearchResult.crash what => ⟨Answer.crash what, s.after, s.fetched⟩
      | SearchResult.items items =>
        match items.find? (fun item => item.Title == req.Title) with
        | some item =>
          ⟨Answer.response
              ⟨if item.PackageName = "" then 204 else 200, "", item.PackageName, "", ""⟩,
            { s.after with SearchCache :=
                s.after.SearchCache.Set key (SearchValue.str item.PackageName) (now + h.SearchTTL) },
            s.fetched⟩
        | none => ⟨Answer.response ⟨204, "", "", "", ""⟩, s.after, s.fetched⟩

/-- The handler `LookupHandler.LookupPackageName` (lines 91-133). -/
def LookupPackageName (h : LookupHandler) (env : Play) (now : Nat)
    (decoded : Except String LookupRequest) : HandlerRun :=
  match decoded with
  | Except.error msg => ⟨Answer.response (LookupHandler.Error msg), h, []⟩
  | Except.ok req =>
    let key := "pkgname:" ++ req.PackageName ++ ":" ++ req.GEO
    match h.SearchCache.GetNotStale now key with
    | some (SearchValue.str title) =>
      ⟨Answer.response ⟨if title = "" then 204 else 200, "", "", title, ""⟩, h, []⟩
    | some (SearchValue.items _) =>
      ⟨Answer.crash "interface conversion: interface \x7b\x7d is []main.GoogleplaySearchItem", h, []⟩
    | none =>
      let s := googleplaySearch h env now req.PackageName req.GEO
      match s.result with
      | SearchResult.error msg => ⟨Answer.response (LookupHandler.Error msg), s.after, s.fetched⟩
      | SearchResult.crash what => ⟨Answer.crash what, s.after, s.fetched⟩
      | SearchResult.items items =>
        match items.find? (fun item => item.PackageName == req.PackageName) with
        | some item =>
          ⟨Answer.response ⟨if item.Title = "" then 204 else 200, "", "", item.Title, ""⟩,
            { s.after with SearchCache :=
                s.after.SearchCache.Set key (SearchValue.str item.Title) (now + h.SearchTTL) },
            s.fetched⟩
        | none => ⟨Answer.response ⟨204, "", "", "", ""⟩, s.after, s.fetched⟩

/-- The handler of `ipinfo.go`. `Regex` is `h.Regex.FindStringSubmatch`; the
cache stores `*IpinfoItem` values only. -/
structure IpinfoHandler where
  Regex : String → Option (List String)
  Cache : String → Option (IpinfoItem × Nat)
  CacheTTL : Nat

/-- The response envelope, `IpinfoResponse`. -/
structure IpinfoResponse where
  Error : String
  Location : String
  ISP : String
  deriving DecidableEq, Repr

/-- One call of `ipinfoSearch` (lines 77-117) by a single caller, for what the
GET comes to. -/
def ipinfoSearchOnce (h : IpinfoHandler) (fetch : Fetch) : SearchReturn :=
  match fetch with
  | Fetch.requestError msg => SearchReturn.error msg
  | Fetch.roundTripError msg => (ipinfoSearch h.Regex (some msg) ⟨"", false⟩).1
  | Fetch.readError msg => SearchReturn.error msg
  | Fetch.body data => (ipinfoSearch h.Regex none ⟨data, false⟩).1

/-- A handled `/ipinfo` request: the response (`none` on a panic), the handler
afterwards, the addresses for which a GET reached the upstream. -/
structure IpinfoRun where
  answer : Option IpinfoResponse
  after : IpinfoHandler
  fetched : List String

/-- The handler `IpinfoHandler.Ipinfo` (lines 39-70). `ipStr` is the address
after the fallback to the remote address; `get` says what the GET for an
address comes to. -/
def Ipinfo (h : IpinfoHandler) (get : String → Fetch) (now : Nat) (ipStr : String) :
    IpinfoRun :=
  let key := "ipinfo:" ++ ipStr
  let fresh : Option IpinfoItem :=
    match h.Cache key with
    | some e => if now < e.2 then some e.1 else none
    | none => none
  match fresh with
  | some item => ⟨some ⟨"", item.Location, item.ISP⟩, h, []⟩
  | none =>
    let fetched : List String := if (get ipStr).sent = true then [ipStr] else []
    match ipinfoSearchOnce h (get ipStr) with
    | SearchReturn.error msg => ⟨some ⟨msg, "", ""⟩, h, fetched⟩
    | SearchReturn.crash => ⟨none, h, fetched⟩
    | SearchReturn.item item =>
      ⟨some ⟨"", item.Location, item.ISP⟩,
        { h with Cache := fun k => if k = key then some (item, now + h.CacheTTL) else h.Cache k },
        fetched⟩

/-- Surroundings in which `url.PathEscape` leaves the text as it is and every
GET delivers the body `page`. -/
def samplePlay : Play := ⟨fun s => s, fun _ _ => Fetch.body "page"⟩

/-- Surroundings in which every round trip fails. -/
def downPlay : Play := ⟨fun s => s, fun _ _ => Fetch.roundTripError "connection refused"⟩

/-- A handler with an empty cache whose regular expression finds one hit with
an empty package name and the title `X`. -/
def emptyPkgHandler : LookupHandler := ⟨fun _ => [["m", "", "X"]], 60, fun _ => none⟩

/-- A handler with an empty cache whose regular expression finds the two hits
`(com.a, X)` and `(com.b, X)`. -/
def twoHitsHandler : LookupHandler :=
  ⟨fun _ => [["m", "com.a", "X"], ["n", "com.b", "X"]], 60, fun _ => none⟩

/-- A handler with an empty cache whose regular expression finds nothing. -/
def noHitHandler : LookupHandler := ⟨fun _ => [], 60, fun _ => none⟩

/-- An `/ipinfo` handler with an empty cache and the sample expression. -/
def sampleIpinfo : IpinfoHandler := ⟨sampleRegex, fun _ => none, 60⟩

/-! ## `helpers.go` -/

/-- The buffered part of `ConnWithBuffers`: `Buffers` is nil or a sequence of
byte slices. The embedded connection is an input of `Read`. -/
structure ConnWithBuffers where
  Buffers : Option (List (List Nat))
  deriving DecidableEq, Repr

/-- What `Read` gives back: the count, the error, the destination as the caller
sees it afterwards and the receiver afterwards; or a runtime panic. -/
inductive ReadReturn where
  | done (total : Nat) (err : Option String) (b : List Nat) (c : ConnWithBuffers)
  | crash (what : String)
  deriving DecidableEq, Repr

/-- The loop of `ConnWithBuffers.Read` (lines 83-103) on the current
`c.Buffers`. `out` is the part of the caller's destination already written,
`b` the rest of it (the re-sliced `b`), `total` the running count.
`copy(b, c.Buffers[0])` writes `min(len(b), len(c.Buffers[0]))` bytes. -/
def readLoop : List (List Nat) → List Nat → List Nat → Nat → ReadReturn
  | [], _, _, _ => ReadReturn.crash "index out of range [0] with length 0"
  | buf :: rest, out, b, total =>
    let n := min b.length buf.length
    if n < buf.length then
      ReadReturn.done (total + n) none (out ++ buf.take n ++ b.drop n)
        ⟨some (buf.drop n :: rest)⟩
    else if rest.length = 0 then
      ReadReturn.done (total + n) none (out ++ buf.take n ++ b.drop n) ⟨none⟩
    else if (b.drop n).length = 0 then
      ReadReturn.done (total + n) none (out ++ buf.take n ++ b.drop n) ⟨some rest⟩
    else readLoop rest (out ++ buf.take n) (b.drop n) (total + n)

/-- The read, `ConnWithBuffers.Read` (lines 77-106). `connRead` is the `Read`
of the embedded connection. -/
def ConnWithBuffers.Read (c : ConnWithBuffers) (connRead : List Nat → ReadReturn)
    (b : List Nat) : ReadReturn :=
  match c.Buffers with
  | none => connRead b
  | some bufs => readLoop bufs [] b 0

/-- An embedded connection that has nothing to deliver. -/
def idleConn (b : List Nat) : ReadReturn := ReadReturn.done 0 none b ⟨none⟩

/-- Pollution predicate, `resolver.go` lines 163-422: the nested `switch` on
the four bytes, case by case. A case whose inner `switch` matches nothing
reaches the final `return false`. -/
def IsPollutionIP (ip : IP) : Bool :=
  match To4 ip with
  | some [b0, b1, b2, b3] =>
    match b0 with
    | 1 =>
      match b1 with
      | 1 => decide (b2 = 1) && decide (b3 = 1)
      | 2 => decide (b2 = 3) && decide (b3 = 4)
      | _ => false
    | 2 => decide (b1 = 1) && decide (b2 = 1) && decide (b3 = 2)
    | 4 => decide (b1 = 36) && decide (b2 = 66) && decide (b3 = 178)
    | 8 => decide (b1 = 7) && decide (b2 = 198) && decide (b3 = 45)
    | 10 => decide (b1 = 10) && decide (b2 = 10) && decide (b3 = 10)
    | 20 => decide (b1 = 20) && decide (b2 = 20) && decide (b3 = 20)
    | 23 => decide (b1 = 89) && decide (b2 = 5) && decide (b3 = 60)
    | 31 =>
      match b1 with
      | 13 =>
        match b2 with
        | 66 => decide (b3 = 1)
        | 68 => decide (b3 = 22)
        | 69 => decide (b3 = 86)
        | 74 => decide (b3 = 40)
        | _ => false
      | _ => false
    | 37 => decide (b1 = 61) && decide (b2 = 54) && decide (b3 = 158)
    | 42 => decide (b1 = 123) && decide (b2 = 125) && decide (b3 = 237)
    | 46 => decide (b1 = 82) && decide (b2 = 174) && decide (b3 = 68)
    | 49 => decide (b1 = 2) && decide (b2 = 123) && decide (b3 = 56)
    | 54 => decide (b1 = 76) && decide (b2 = 135) && decide (b3 = 1)
    | 59 => decide (b1 = 24) && decide (b2 = 3) && decide (b3 = 173)
    | 60 => decide (b1 = 19) && decide (b2 = 29) && decide (b3 = 22)
    | 61 =>
      match b1 with
      | 131 =>
        match b2 with
        | 208 =>
          match b3 with
          | 210 | 211 => true
          | _ => false
        | _ => false
      | _ => false
    | 64 =>
      match b1 with
      | 33 =>
        match b2 with
        | 88 => decide (b3 = 161)
        | 99 => decide (b3 = 47)
        | _ => false
      | 66 => decide (b2 = 163) && decide (b3 = 251)
      | _ => false
    | 65 =>
      match b1 with
      | 104 => decide (b2 = 202) && decide (b3 = 252)
      | 160 => decide (b2 = 219) && decide (b3 = 113)
      | _ => false
    | 66 => decide (b1 = 45) && decide (b2 = 252) && decide (b3 = 237)
    | 69 => decide (b1 = 171) && decide (b2 = 247) && decide (b3 = 20)
    | 72 =>
      match b1 with
      | 14 =>
        match b2 with
        | 205 =>
          match b3 with
          | 99 | 104 => true
          | _ => false
        | _ => false
      | _ => false
    | 74 =>
      match b1 with
      | 125 =>
        match b2 with
        | 31 => decide (b3 = 113)
        | 39 => decide (b3 = 102) || decide (b3 = 113)
        | 127 => decide (b3 = 102) || decide (b3 = 113)
        | 130 => decide (b3 = 47)
        | 155 => decide (b3 = 102)
        | _ => false
      | _ => false
    | 77 => decide (b1 = 4) && decide (b2 = 7) && decide (b3 = 92)
    | 78 => decide (b1 = 16) && decide (b2 = 49) && decide (b3 = 15)
    | 92 => decide (b1 = 242) && decide (b2 = 144) && decide (b3 = 2)
    | 93 => decide (b1 = 46) && decide (b2 = 8) && decide (b3 = 89)
    | 108 => decide (b1 = 160) && decide (b2 = 166) && decide (b3 = 92)
    | 110 => decide (b1 = 249) && decide (b2 = 209) && decide (b3 = 42)
    | 118 => decide (b1 = 5) && decide (b2 = 49) && decide (b3 = 6)
    | 120 => decide (b1 = 192) && decide (b2 = 83) && decide (b3 = 163)
    | 123 =>
      match b1 with
      | 129 =>
        match b2 with
        | 254 =>
          match b3 with
          | 12 | 13 | 14 | 15 => true
          | _ => false
        | _ => false
      | _ => false
    | 125 => decide (b1 = 211) && decide (b2 = 213) && decide (b3 = 132)
    | 128 => decide (b1 = 121) && decide (b2 = 126) && decide (b3 = 139)
    | 159 => decide (b1 = 106) && decide (b2 = 121) && decide (b3 = 75)
    | 169 => decide (b1 = 132) && decide (b2 = 13) && decide (b3 = 103)
    | 183 => decide (b1 = 221) && decide (b2 = 250) && decide (b3 = 11)
    | 185 => decide (b1 = 85) && decide (b2 = 13) && decide (b3 = 155)
    | 188 => decide (b1 = 5) && decide (b2 = 4) && decide (b3 = 96)
    | 189 => decide (b1 = 163) && decide (b2 = 17) && decide (b3 = 5)
    | 192 => decide (b1 = 67) && decide (b2 = 198) && decide (b3 = 6)
    | 197 => decide (b1 = 4) && decide (b2 = 4) && decide (b3 = 12)
    | 202 =>
      match b1 with
      | 98 =>
        match b2 with
        | 24 =>
          match b3 with
          | 122 | 124 | 125 => true
          | _ => false
        | _ => false
      | 106 => decide (b2 = 1) && decide (b3 = 2)
      | 181 => decide (b2 = 7) && decide (b3 = 85)
      | _ => false
    | 203 =>
      match b1 with
      | 98 => decide (b2 = 7) && decide (b3 = 65)
      | 161 => decide (b2 = 230) && decide (b3 = 171)
      | _ => false
    | 207 => decide (b1 = 12) && decide (b2 = 88) && decide (b3 = 98)
    | 208 => decide (b1 = 56) && decide (b2 = 31) && decide (b3 = 43)
    | 209 =>
      match b1 with
      | 36 => decide (b2 = 73) && decide (b3 = 33)
      | 85 => decide (b2 = 229) && decide (b3 = 138)
      | 145 => decide (b2 = 54) && decide (b3 = 50)
      | 220 => decide (b2 = 30) && decide (b3 = 174)
      | _ => false
    | 210 => decide (b1 = 242) && decide (b2 = 125) && decide (b3 = 20)
    | 211 =>
      match b1 with
      | 138 =>
        match b2 with
        | 34 => decide (b3 = 204)
        | 74 => decide (b3 = 132)
        | _ => false
      | 94 => decide (b2 = 66) && decide (b3 = 147)
      | 98 =>
        match b2 with
        | 70 =>
          match b3 with
          | 195 | 226 | 227 => true
          | _ => false
        | 71 => decide (b3 = 195)
        | _ => false
      | _ => false
    | 213 => decide (b1 = 169) && decide (b2 = 251) && decide (b3 = 35)
    | 216 =>
      match b1 with
      | 221 => decide (b2 = 188) && decide (b3 = 182)
      | 234 => decide (b2 = 179) && decide (b3 = 13)
      | _ => false
    | 218 => decide (b1 = 93) && decide (b2 = 250) && decide (b3 = 18)
    | 220 =>
      match b1 with
      | 165 =>
        match b2 with
        | 8 =>
          match b3 with
          | 172 | 174 => true
          | _ => false
        | _ => false
      | 250 => decide (b2 = 64) && decide (b3 = 20)
      | _ => false
    | 221 => decide (b1 = 179) && decide (b2 = 46) && decide (b3 = 190)
    | 243 => decide (b1 = 185) && decide (b2 = 187) && decide (b3 = 39)
    | 249 => decide (b1 = 129) && decide (b2 = 46) && decide (b3 = 48)
    | 253 => decide (b1 = 157) && decide (b2 = 14) && decide (b3 = 165)
    | 255 => decide (b1 = 255) && decide (b2 = 255) && decide (b3 = 255)
    | _ => false
  | _ => false

/-- The addresses named in the line comments of `IsPollutionIP`, in the order
of the source. -/
def pollutionComments : List IP :=
  [[1, 1, 1, 1], [1, 2, 3, 4], [2, 1, 1, 2], [4, 36, 66, 178], [8, 7, 198, 45],
   [10, 10, 10, 10], [20, 20, 20, 20], [23, 89, 5, 60], [31, 13, 66, 1], [31, 13, 68, 22],
   [31, 13, 69, 86], [31, 13, 74, 40], [37, 61, 54, 158], [42, 123, 125, 237],
   [46, 82, 174, 68], [49, 2, 123, 56], [54, 76, 135, 1], [59, 24, 3, 173], [60, 19, 29, 22],
   [61, 131, 208, 210], [61, 131, 208, 211], [64, 33, 88, 161], [64, 33, 99, 47],
   [64, 66, 163, 251], [65, 104, 202, 252], [65, 160, 219, 113], [66, 45, 252, 237],
   [69, 171, 247, 20], [72, 14, 205, 99], [72, 14, 205, 104], [74, 125, 31, 113],
   [74, 125, 39, 102], [74, 125, 39, 113], [74, 125, 127, 102], [74, 125, 127, 113],
   [74, 125, 130, 47], [74, 125, 155, 102], [77, 4, 7, 92], [78, 16, 49, 15],
   [92, 242, 144, 2], [93, 46, 8, 89], [108, 160, 166, 92], [110, 249, 209, 42],
   [118, 5, 49, 6], [120, 192, 83, 163], [123, 129, 254, 12], [123, 129, 254, 13],
   [123, 129, 254, 14], [123, 129, 254, 15], [125, 211, 213, 132], [128, 121, 126, 139],
   [159, 106, 121, 75], [169, 132, 13, 103], [183, 221, 250, 11], [185, 85, 13, 155],
   [188, 5, 4, 96], [189, 163, 17, 5], [192, 67, 198, 6], [197, 4, 4, 12], [202, 98, 24, 122],
   [202, 98, 24, 124], [202, 98, 24, 125], [202, 106, 1, 2], [202, 181, 7, 85],
   [203, 98, 7, 65], [203, 161, 230, 171], [207, 12, 88, 98], [208, 56, 31, 43],
   [209, 36, 73, 33], [209, 85, 229, 138], [209, 145, 54, 50], [209, 220, 30, 174],
   [210, 242, 125, 20], [211, 138, 34, 204], [211, 138, 74, 132], [211, 94, 66, 147],
   [211, 98, 70, 195], [211, 98, 70, 225], [211, 98, 70, 227], [211, 98, 71, 195],
   [213, 169, 251, 35], [216, 221, 188, 182], [216, 234, 179, 13], [218, 93, 250, 18],
   [220, 165, 8, 172], [220, 165, 8, 174], [220, 250, 64, 20], [221, 179, 46, 190],
   [243, 185, 187, 39], [249, 129, 46, 48], [253, 157, 14, 165], [255, 255, 255, 255]]

/-- The addresses for which the branches of `IsPollutionIP` return true: the
list of the comments with `211.98.70.226` in the place of `211.98.70.225`. -/
def pollutionCoded : List IP :=
  [[1, 1, 1, 1], [1, 2, 3, 4], [2, 1, 1, 2], [4, 36, 66, 178], [8, 7, 198, 45],
   [10, 10, 10, 10], [20, 20, 20, 20], [23, 89, 5, 60], [31, 13, 66, 1], [31, 13, 68, 22],
   [31, 13, 69, 86], [31, 13, 74, 40], [37, 61, 54, 158], [42, 123, 125, 237],
   [46, 82, 174, 68], [49, 2, 123, 56], [54, 76, 135, 1], [59, 24, 3, 173], [60, 19, 29, 22],
   [61, 131, 208, 210], [61, 131, 208, 211], [64, 33, 88, 161], [64, 33, 99, 47],
   [64, 66, 163, 251], [65, 104, 202, 252], [65, 160, 219, 113], [66, 45, 252, 237],
   [69, 171, 247, 20], [72, 14, 205, 99], [72, 14, 205, 104], [74, 125, 31, 113],
   [74, 125, 39, 102], [74, 125, 39, 113], [74, 125, 127, 102], [74, 125, 127, 113],
   [74, 125, 130, 47], [74, 125, 155, 102], [77, 4, 7, 92], [78, 16, 49, 15],
   [92, 242, 144, 2], [93, 46, 8, 89], [108, 160, 166, 92], [110, 249, 209, 42],
   [118, 5, 49, 6], [120, 192, 83, 163], [123, 129, 254, 12], [123, 129, 254, 13],
   [123, 129, 254, 14], [123, 129, 254, 15], [125, 211, 213, 132], [128, 121, 126, 139],
   [159, 106, 121, 75], [169, 132, 13, 103], [183, 221, 250, 11], [185, 85, 13, 155],
   [188, 5, 4, 96], [189, 163, 17, 5], [192, 67, 198, 6], [197, 4, 4, 12], [202, 98, 24, 122],
   [202, 98, 24, 124], [202, 98, 24, 125], [202, 106, 1, 2], [202, 181, 7, 85],
   [203, 98, 7, 65], [203, 161, 230, 171], [207, 12, 88, 98], [208, 56, 31, 43],
   [209, 36, 73, 33], [209, 85, 229, 138], [209, 145, 54, 50], [209, 220, 30, 174],
   [210, 242, 125, 20], [211, 138, 34, 204], [211, 138, 74, 132], [211, 94, 66, 147],
   [211, 98, 70, 195], [211, 98, 70, 226], [211, 98, 70, 227], [211, 98, 71, 195],
   [213, 169, 251, 35], [216, 221, 188, 182], [216, 234, 179, 13], [218, 93, 250, 18],
   [220, 165, 8, 172], [220, 165, 8, 174], [220, 250, 64, 20], [221, 179, 46, 190],
   [243, 185, 187, 39], [249, 129, 46, 48], [253, 157, 14, 165], [255, 255, 255, 255]]

/-! ## `Resolver.AddStaticHosts` -/

/-- The library predicate `unicode.IsSpace`, by code point: the Latin-1 spaces
and the other characters with the White_Space property. -/
def isSpace (c : Char) : Bool :=
  let n := c.toNat
  (decide (9 ≤ n) && decide (n ≤ 13)) || decide (n = 32) || decide (n = 133) ||
  decide (n = 160) || decide (n = 5760) || (decide (8192 ≤ n) && decide (n ≤ 8202)) ||
  decide (n = 8232) || decide (n = 8233) || decide (n = 8239) || decide (n = 8287) ||
  decide (n = 12288)

/-- The library function `strings.TrimSpace`, on the characters of the text. -/
def TrimSpace (s : List Char) : List Char :=
  ((s.dropWhile isSpace).reverse.dropWhile isSpace).reverse

/-- Lines 44-46: the text before the first `#`, the whole text when there is
none. -/
def cutComment (s : List Char) : List Char := s.takeWhile (fun c => c.toNat ≠ 35)

/-- The library function `strings.Fields` with the word being read kept in
reverse in `cur`: maximal runs of characters that are not spaces. -/
def fieldsLoop : List Char → List Char → List (List Char)
  | [], cur => if cur = [] then [] else [cur.reverse]
  | c :: cs, cur =>
    if isSpace c = true then
      if cur = [] then fieldsLoop cs [] else cur.reverse :: fieldsLoop cs []
    else fieldsLoop cs (c :: cur)

/-- The library function `strings.Fields`. -/
def Fields (s : List Char) : List (List Char) := fieldsLoop s []

/-- The split function `bufio.ScanLines` before the carriage return is
dropped, with the line being read kept in reverse in `cur`: the text is cut at
every newline; what follows the last newline is a line when it is not empty. -/
def splitLinesLoop : List Char → List Char → List (List Char)
  | [], cur => if cur = [] then [] else [cur.reverse]
  | c :: cs, cur =>
    if c.toNat = 10 then cur.reverse :: splitLinesLoop cs [] else splitLinesLoop cs (c :: cur)

/-- The raw lines of a text. -/
def splitLines (s : List Char) : List (List Char) := splitLinesLoop s []

/-- The library helper `dropCR`: one trailing carriage return is dropped. -/
def dropCR (line : List Char) : List Char :=
  match line.getLast? with
  | some c => if c.toNat = 13 then line.dropLast else line
  | none => line

/-- The length of a text in bytes of its UTF-8 encoding. -/
def byteLen (s : List Char) : Nat := (s.map (fun c => c.utf8Size)).sum

/-- The library constant `bufio.MaxScanTokenSize`: the scanner's buffer grows to
this size and no further; a line that does not end inside it cannot be
delivered. -/
def MaxScanTokenSize : Nat := 65536

/-- The assignment `r.static[name] = []net.IP{ip}`. -/
def setStatic (m : String → Option (List IP)) (name : String) (ip : IP) :
    String → Option (List IP) :=
  fun k => if k = name then some [ip] else m k

/-- The body of the scan loop (lines 43-64) on one scanned line. -/
def addHostsLine (parseIP : String → Option IP) (m : String → Option (List IP))
    (text : List Char) : String → Option (List IP) :=
  let s := cutComment (TrimSpace text)
  if s = [] then m
  else
    let words := Fields s
    if words.length < 2 then m
    else
      match words with
      | [] => m
      | w0 :: names =>
        match parseIP (String.mk (TrimSpace w0)) with
        | none => m
        | some ip => names.foldl (fun acc name => setStatic acc (String.mk (TrimSpace name)) ip) m

/-- The scan loop (lines 42-69) over the raw lines still to come: the map after
it and the value of `scanner.Err()`. -/
def scanLoop (parseIP : String → Option IP) :
    List (List Char) → (String → Option (List IP)) → (String → Option (List IP)) × Option String
  | [], m => (m, none)
  | raw :: rest, m =>
    if MaxScanTokenSize ≤ byteLen raw then (m, some "bufio.Scanner: token too long")
    else scanLoop parseIP rest (addHostsLine parseIP m (dropCR raw))

/-- Loading a hosts text, `Resolver.AddStaticHosts` (lines 36-72), for a reader
that delivers the UTF-8 text `text` without error: the resolver afterwards and
the returned error. -/
def AddStaticHosts (r : Resolver) (text : String) : Resolver × Option String :=
  let m0 : String → Option (List IP) :=
    match r.static with
    | some m => m
    | none => fun _ => none
  let res := scanLoop r.ParseIP (splitLines text.data) m0
  ({ r with static := some res.1 }, res.2)

/-- The update the specification describes for one line: when the line, trimmed
and cut at the first `#`, has at least two fields of which the first parses as
an IP, every following field maps to `[ip]`; otherwise nothing changes. -/
def specLine (parseIP : String → Option IP) (m : String → Option (List IP))
    (line : List Char) : String → Option (List IP) :=
  match Fields (cutComment (TrimSpace line)) with
  | first :: second :: more =>
    match parseIP (String.mk first) with
    | some ip =>
      fun k => if k ∈ (second :: more).map String.mk then some [ip] else m k
    | none => m
  | _ => m

/-- The map the specification describes for a text: the previous map updated
line by line in input order. -/
def specHosts (parseIP : String → Option IP) (m : String → Option (List IP))
    (text : String) : String → Option (List IP) :=
  ((splitLines text.data).map dropCR).foldl (specLine parseIP) m

/-- A stand-in for `net.ParseIP` that agrees with it on the words of the sample
text: `1.2.3.4` parses (to the 16-byte form), `bad` does not. -/
def sampleParseIP (s : String) : Option IP :=
  if s = "1.2.3.4" then some [0, 0, 0, 0, 0, 0, 0, 0, 0, 0, 255, 255, 1, 2, 3, 4] else none

/-- A resolver without static map whose `ParseIP` is the stand-in. -/
def hostsResolver : Resolver := { bareResolver with ParseIP := sampleParseIP }

/-- The sample hosts text of the specification. -/
def sampleHosts : String := "1.2.3.4 a.test b.test\n# c\n bad line\n"

/-- A hosts text whose first line has 65536 bytes and whose second line is a
well-formed entry. -/
def longLineHosts : String :=
  String.mk (List.replicate 65536 (Char.ofNat 97) ++ Char.ofNat 10 :: "1.2.3.4 a.test\n".data)

/-- A serial dialer (`Level` 0) without intranet guard that prefers IPv4. -/
def plainDialer : TCPDialer := ⟨0, 0, 0, false, false⟩

/-- A hosts text whose second line has 65536 bytes, between two well-formed
entries. -/
def lateLongLineHosts : String :=
  String.mk ("1.2.3.4 a.test".data ++ Char.ofNat 10 ::
    (List.replicate 65536 (Char.ofNat 97) ++ Char.ofNat 10 :: "1.2.3.4 b.test\n".data))

/-! ## Properties -/

/-- Overwriting the last entry of `mid ++ [z]`. -/
theorem set_length_append_singleton (mid : List IP) (z a : IP) :
    (mid ++ [z]).set mid.length a = mid ++ [a] := by
  induction mid with
  | nil => rfl
  | cons m mid ih => simp [List.set, ih]

/-- The entry at `len - 1` of `a :: (mid ++ [z])` is `z`. -/
theorem getD_last_concat (a : IP) (mid : List IP) (z : IP) :
    (a :: (mid ++ [z])).getD ((a :: (mid ++ [z])).length - 1) [] = z := by
  simp [List.getD]

/-- The exchange of the ends, on a sequence written with its two ends apart. -/
theorem swapEnds_concat (a : IP) (mid : List IP) (z : IP) :
    swapEnds (a :: (mid ++ [z])) = z :: (mid ++ [a]) := by
  have h : (a :: (mid ++ [z])).get? ((a :: (mid ++ [z])).length - 1) = some z := by
    simp
  unfold swapEnds
  simp only [h]
  simp [List.set, set_length_append_singleton]

/-- The candidate ordering on a sequence of at least two entries: the ends are
exchanged exactly when the first is not of the preferred family and the last is. -/
theorem reorder_concat (p : Bool) (a : IP) (mid : List IP) (z : IP) :
    reorder p (a :: (mid ++ [z])) =
      if preferred p a = false ∧ preferred p z = true then z :: (mid ++ [a])
      else a :: (mid ++ [z]) := by
  have hl := getD_last_concat a mid z
  have hs := swapEnds_concat a mid z
  cases mid with
  | nil =>
    simp only [List.nil_append] at hl hs ⊢
    unfold reorder
    simp only [hl, hs]
    cases p <;> simp [preferred, isIPv4] <;>
      cases h1 : To4 a <;> cases h2 : To4 z <;> simp
  | cons m mid =>
    simp only [List.cons_append] at hl hs ⊢
    unfold reorder
    simp only [hl, hs]
    cases p <;> simp [preferred, isIPv4] <;>
      cases h1 : To4 a <;> cases h2 : To4 z <;> simp

/-- A list is empty or ends in a last entry. -/
theorem nil_or_snoc (l : List IP) : l = [] ∨ ∃ mid z, l = mid ++ [z] := by
  rcases List.eq_nil_or_concat l with h | ⟨mid, z, h⟩
  · exact Or.inl h
  · exact Or.inr ⟨mid, z, by simpa using h⟩

/-- The candidate ordering permutes the resolved sequence. -/
theorem reorder_perm (p : Bool) (ips : List IP) : (reorder p ips).Perm ips := by
  rcases ips with _ | ⟨a, rest⟩
  · simp [reorder]
  rcases nil_or_snoc rest with rfl | ⟨mid, z, rfl⟩
  · simp [reorder]
  rw [reorder_concat p a mid z]
  split
  · have h1 : (z :: (mid ++ [a])).Perm (z :: a :: mid) :=
      List.Perm.cons z (List.perm_append_singleton a mid)
    have h2 : (a :: (mid ++ [z])).Perm (a :: z :: mid) :=
      List.Perm.cons a (List.perm_append_singleton z mid)
    exact h1.trans ((List.Perm.swap a z mid).trans h2.symm)
  · exact List.Perm.refl _

/-- The serial loop stops at the first candidate that succeeds and returns its
connection, having attempted the candidates up to it in order. -/
theorem dialSerialLoop_success (nw : Network) (port : Int) (tlsConfig : Bool) (len : Nat) :
    ∀ (rest : List IP) (i : Nat) (err : Option DialError) (k : Nat),
      len = i + rest.length → k < rest.length →
      succeeds nw tlsConfig (i + k) (rest.getD k []) = true →
      (∀ j, j < k → succeeds nw tlsConfig (i + j) (rest.getD j []) = false) →
      dialSerialLoop nw port tlsConfig len i rest err =
        (Outcome.conn ⟨rest.getD k [], port, i + k, none, tlsConfig⟩,
          attemptsUpTo nw tlsConfig i rest (k + 1)) := by
  intro rest
  induction rest with
  | nil => intro i err k _ hk; simp at hk
  | cons ip rest ih =>
    intro i err k hlen hk hs hf
    cases k with
    | zero =>
      simp only [succeeds, List.getD_cons_zero, Nat.add_zero, Bool.and_eq_true,
        Bool.or_eq_true, Bool.not_eq_true'] at hs
      obtain ⟨hc, ht⟩ := hs
      unfold dialSerialLoop
      simp only [hc, attemptsUpTo, attemptsOf, Nat.add_zero, List.getD_cons_zero]
      rcases ht with ht | ht
      · simp [ht]
      · cases tlsConfig <;> simp [ht]
    | succ k =>
      have h0 := hf 0 (Nat.succ_pos k)
      simp only [succeeds, List.getD_cons_zero, Nat.add_zero, Bool.and_eq_false_iff,
        Bool.or_eq_false_iff, Bool.not_eq_false'] at h0
      have hk2 : k < rest.length := by simpa using hk
      have hi : (i : Int) < (len : Int) - 1 := by
        simp only [List.length_cons] at hlen
        omega
      have hrec := fun e => ih (i + 1) e k (by simp only [List.length_cons] at hlen; omega) hk2
        (by simpa [Nat.add_assoc, Nat.add_comm 1 k] using hs)
        (fun j hj => by
          have := hf (j + 1) (by omega)
          simpa [Nat.add_assoc, Nat.add_comm 1 j] using this)
      have hidx : i + 1 + k = i + (k + 1) := by omega
      unfold dialSerialLoop
      rcases h0 with hc | ⟨ht, hh⟩
      · simp only [hc, hi, if_true, hrec, attemptsUpTo, attemptsOf, List.getD_cons_succ, hidx]
        simp
      · subst ht
        by_cases hc : nw.connect i ip = false
        · simp only [hc, hi, if_true, hrec, attemptsUpTo, attemptsOf, List.getD_cons_succ, hidx]
          simp
        · have hc2 : nw.connect i ip = true := by simpa using hc
          simp only [hc2, hh, hi, if_true, hrec, attemptsUpTo, attemptsOf,
            List.getD_cons_succ, hidx]
          simp

/-- When no candidate succeeds the serial loop attempts all of them and returns
the failure of the last. -/
theorem dialSerialLoop_failure (nw : Network) (port : Int) (tlsConfig : Bool) (len : Nat) :
    ∀ (rest : List IP) (i : Nat) (err : Option DialError),
      len = i + rest.length → rest ≠ [] →
      (∀ j, j < rest.length → succeeds nw tlsConfig (i + j) (rest.getD j []) = false) →
      dialSerialLoop nw port tlsConfig len i rest err =
        (Outcome.error (failureOf nw (len - 1) (rest.getD (rest.length - 1) [])),
          attemptsUpTo nw tlsConfig i rest rest.length) := by
  intro rest
  induction rest with
  | nil => intro i err _ h; exact absurd rfl h
  | cons ip rest ih =>
    intro i err hlen _ hf
    have h0 := hf 0 (by simp)
    simp only [succeeds, List.getD_cons_zero, Nat.add_zero, Bool.and_eq_false_iff,
      Bool.or_eq_false_iff, Bool.not_eq_false'] at h0
    simp only [List.length_cons] at hlen
    cases rest with
    | nil =>
      have hi : ¬ ((i : Int) < (len : Int) - 1) := by
        simp only [List.length_nil] at hlen
        omega
      have hl : len - 1 = i := by simp only [List.length_nil] at hlen; omega
      unfold dialSerialLoop
      rcases h0 with hc | ⟨ht, hh⟩
      · simp [hc, hi, hl, failureOf, attemptsUpTo, attemptsOf]
      · by_cases hc : nw.connect i ip = false
        · simp [hc, hi, hl, failureOf, attemptsUpTo, attemptsOf]
        · have hc2 : nw.connect i ip = true := by simpa using hc
          simp [hc2, ht, hh, hi, hl, failureOf, attemptsUpTo, attemptsOf]
    | cons ip2 rest2 =>
      have hi : (i : Int) < (len : Int) - 1 := by
        simp only [List.length_cons] at hlen
        omega
      have hrec := fun e => ih (i + 1) e (by simp only [List.length_cons] at hlen ⊢; omega)
        (by simp)
        (fun j hj => by
          have := hf (j + 1) (by simpa using hj)
          simpa [Nat.add_assoc, Nat.add_comm 1 j] using this)
      unfold dialSerialLoop
      rcases h0 with hc | ⟨ht, hh⟩
      · simp only [hc, hi, if_true, hrec, attemptsUpTo, attemptsOf]
        simp
      · subst ht
        by_cases hc : nw.connect i ip = false
        · simp only [hc, hi, if_true, hrec, attemptsUpTo, attemptsOf]
          simp
        · have hc2 : nw.connect i ip = true := by simpa using hc
          simp only [hc2, hh, hi, if_true, hrec, attemptsUpTo, attemptsOf]
          simp

/-- A connection returned by the serial loop was made to the candidate at its
index. -/
theorem dialSerialLoop_conn_candidate (nw : Network) (port : Int) (tlsConfig : Bool) (len : Nat) :
    ∀ (rest : List IP) (i : Nat) (err : Option DialError) (c : Conn),
      (dialSerialLoop nw port tlsConfig len i rest err).1 = Outcome.conn c →
      ∃ k, c.index = i + k ∧ rest.get? k = some c.remote := by
  intro rest
  induction rest with
  | nil =>
    intro i err c h
    unfold dialSerialLoop at h
    cases err <;> simp at h
  | cons ip rest ih =>
    intro i err c h
    have step : ∀ e, (dialSerialLoop nw port tlsConfig len (i + 1) rest e).1 = Outcome.conn c →
        ∃ k, c.index = i + k ∧ (ip :: rest).get? k = some c.remote := by
      intro e he
      obtain ⟨k, hk1, hk2⟩ := ih (i + 1) e c he
      exact ⟨k + 1, by omega, by simpa using hk2⟩
    unfold dialSerialLoop at h
    split at h
    · split at h
      · exact step _ h
      · simp at h
    · split at h
      · simp only [Outcome.conn.injEq] at h
        subst h
        exact ⟨0, rfl, rfl⟩
      · split at h
        · split at h
          · exact step _ h
          · simp at h
        · simp only [Outcome.conn.injEq] at h
          subst h
          exact ⟨0, rfl, rfl⟩

/-- A connection sent by a racing worker is to the worker's candidate and
carries the keepalive setting of the dialer. -/
theorem worker_conn (d : TCPDialer) (nw : Network) (port : Int) (tlsConfig : Bool) (i : Nat)
    (ip : IP) (c : Conn) (h : (worker d nw port tlsConfig i ip).Conn = some c) :
    c.remote = ip ∧ c.index = i ∧
      c.keepAlive = (if d.KeepAlive > 0 then some d.KeepAlive else none) := by
  unfold worker at h
  by_cases hc : nw.connect i ip = false
  · simp [hc] at h
  · by_cases ht : tlsConfig = false
    · simp [hc, ht] at h
      subst h
      exact ⟨rfl, rfl, rfl⟩
    · by_cases hh : nw.handshake i ip = false
      · simp [hc, ht, hh] at h
      · simp [hc, ht, hh] at h
        subst h
        exact ⟨rfl, rfl, rfl⟩

/-- A connection returned by the collecting loop is one of the arrived results. -/
theorem collect_conn_mem : ∀ (todo : Nat) (lane : List dialResult) (r : dialResult) (c : Conn),
    (collect todo lane r).1 = Outcome.conn c → ∃ x ∈ lane, x.Conn = some c := by
  intro todo
  induction todo with
  | zero =>
    intro lane r c h
    unfold collect at h
    split at h <;> simp at h
  | succ todo ih =>
    intro lane r c h
    cases lane with
    | nil => simp [collect] at h
    | cons x lane =>
      unfold collect at h
      split at h
      · split at h
        · rename_i c2 hc2
          simp only [Outcome.conn.injEq] at h
          subst h
          exact ⟨x, by simp, hc2⟩
        · simp at h
      · obtain ⟨y, hy, hyc⟩ := ih lane x c h
        exact ⟨y, List.mem_cons_of_mem _ hy, hyc⟩

/-- A connection returned by the race was made to the candidate at its index. -/
theorem raceWorkers_conn_candidate (d : TCPDialer) (nw : Network) (ips : List IP) (port : Int)
    (tlsConfig : Bool) (level : Nat) (arrival : List Nat) (c : Conn)
    (h : (raceWorkers d nw ips port tlsConfig level arrival).outcome = Outcome.conn c) :
    ips.get? c.index = some c.remote ∧
      c.keepAlive = (if d.KeepAlive > 0 then some d.KeepAlive else none) := by
  obtain ⟨x, hx, hxc⟩ := collect_conn_mem _ _ _ c h
  unfold laneOf at hx
  rw [List.mem_filterMap] at hx
  obtain ⟨i, _, hi⟩ := hx
  split at hi
  · rw [Option.map_eq_some'] at hi
    obtain ⟨ip, hip, hw⟩ := hi
    subst hw
    obtain ⟨h1, h2, h3⟩ := worker_conn d nw port tlsConfig i ip c hxc
    rw [h1, h2]
    exact ⟨hip, h3⟩
  · simp at hi

/-- An entry of a trimmed sequence is the entry of the sequence. -/
theorem get?_of_take (ips : List IP) (n i : Nat) (x : IP) (h : (ips.take n).get? i = some x) :
    ips.get? i = some x := by
  rw [List.get?_eq_getElem?, List.getElem?_take] at h
  split at h
  · simpa using h
  · simp at h

/-- A connection returned by `dialParallel` was made to the candidate at its
index, with the keepalive setting of the dialer. -/
theorem dialParallel_conn_candidate (d : TCPDialer) (nw : Network) (ips : List IP) (port : Int)
    (tlsConfig : Bool) (arrival : List Nat) (c : Conn)
    (h : (dialParallel d nw ips port tlsConfig arrival).outcome = Outcome.conn c) :
    ips.get? c.index = some c.remote ∧
      c.keepAlive = (if d.KeepAlive > 0 then some d.KeepAlive else none) := by
  unfold dialParallel at h
  split at h
  · split at h
    · simp at h
    · obtain ⟨h1, h2⟩ := raceWorkers_conn_candidate _ _ _ _ _ _ _ c h
      exact ⟨get?_of_take _ _ _ _ h1, h2⟩
  · split at h
    · simp at h
    · exact raceWorkers_conn_candidate _ _ _ _ _ _ _ c h

/-- After a split address and a resolved non-empty sequence the dial works on
the reordered sequence: the guard tests its first entry, the serial path dials
it in order, the racing path races it (a single entry twice). -/
theorem dialContext_dials_reordered (d : TCPDialer) (nw : Network) (address host : String)
    (port : Int) (ips : List IP) (tlsConfig : Bool) (arrival : List Nat) (hne : ips ≠ []) :
    dialContext d nw address (some (host, port)) (Except.ok ips) tlsConfig arrival =
      if d.RejectIntranet = true ∧
          IsReservedIP ((reorder d.PreferIPv6 ips).getD 0 []) = true then
        DialRun.failed (DialError.intranetRejected ((reorder d.PreferIPv6 ips).getD 0 []))
      else if d.Level = 0 ∨ d.Level = 1 then
        DialRun.serial (dialSerial d nw (reorder d.PreferIPv6 ips) port tlsConfig)
      else
        DialRun.racing (dialParallel d nw
          (if (reorder d.PreferIPv6 ips).length = 1 then
            reorder d.PreferIPv6 ips ++ [(reorder d.PreferIPv6 ips).getD 0 []]
          else reorder d.PreferIPv6 ips) port tlsConfig arrival) := by
  have hlen : ¬ (ips.length = 0) := fun h => hne (List.length_eq_zero.1 h)
  simp only [dialContext, hlen, if_false]

/-- On the serial path, when the guard lets the dial pass and the first attempt
succeeds, the connection returned is to the first entry of the reordered
sequence. -/
theorem dialContext_first_attempt (d : TCPDialer) (nw : Network) (address host : String)
    (port : Int) (ips : List IP) (tlsConfig : Bool) (arrival : List Nat) (hne : ips ≠ [])
    (hguard : ¬ (d.RejectIntranet = true ∧
      IsReservedIP ((reorder d.PreferIPv6 ips).getD 0 []) = true))
    (hserial : d.Level = 0 ∨ d.Level = 1)
    (hfirst : succeeds nw tlsConfig 0 ((reorder d.PreferIPv6 ips).getD 0 []) = true) :
    (dialContext d nw address (some (host, port)) (Except.ok ips) tlsConfig arrival).outcome =
      Outcome.conn ⟨(reorder d.PreferIPv6 ips).getD 0 [], port, 0, none, tlsConfig⟩ := by
  rw [dialContext_dials_reordered d nw address host port ips tlsConfig arrival hne]
  simp only [hguard, hserial, if_false, if_true, DialRun.outcome, dialSerial]
  have hpos : 0 < (reorder d.PreferIPv6 ips).length := by
    rw [(reorder_perm d.PreferIPv6 ips).length_eq]
    exact List.length_pos.2 hne
  have h := dialSerialLoop_success nw port tlsConfig (reorder d.PreferIPv6 ips).length
    (reorder d.PreferIPv6 ips) 0 none 0 (by simp) hpos (by simpa using hfirst)
    (fun j hj => absurd hj (Nat.not_lt_zero j))
  rw [h]

/-- C6. The candidate order of `dialContext` is the resolved sequence with its
first and last entries exchanged when it has at least two entries, the first is
not of the preferred family and the last is; it is the sequence unchanged in
every other case. It is a permutation of the same length in which every entry
strictly between the ends keeps its position. `dialContext` applies its guard to
the first entry of this order and dials this order, serially or raced. With
`PreferIPv6 = false`, `[2001:db8::1, 1.1.1.1]` puts `1.1.1.1` first; with
`PreferIPv6 = true`, `[1.1.1.1, 2001:db8::1]` puts `2001:db8::1` first: the
serial dial whose first attempt succeeds returns a connection to it. -/
theorem C6_reorder_exchanges_ends (p : Bool) (ips : List IP) :
    ((2 ≤ ips.length ∧ preferred p (ips.getD 0 []) = false ∧
        preferred p (ips.getD (ips.length - 1) []) = true) →
      ∃ a mid z, ips = a :: (mid ++ [z]) ∧ reorder p ips = z :: (mid ++ [a])) ∧
    (¬ (2 ≤ ips.length ∧ preferred p (ips.getD 0 []) = false ∧
        preferred p (ips.getD (ips.length - 1) []) = true) → reorder p ips = ips) ∧
    (reorder p ips).Perm ips ∧
    (reorder p ips).length = ips.length ∧
    (∀ i, 0 < i → i + 1 < ips.length → (reorder p ips).get? i = ips.get? i) ∧
    (reorder false [ip6a, ip1111]).head? = some ip1111 ∧
    (reorder true [ip1111, ip6a]).head? = some ip6a ∧
    (∀ (d : TCPDialer) (nw : Network) (address host : String) (port : Int)
        (tlsConfig : Bool) (arrival : List Nat), d.PreferIPv6 = p → ips ≠ [] →
      dialContext d nw address (some (host, port)) (Except.ok ips) tlsConfig arrival =
        if d.RejectIntranet = true ∧ IsReservedIP ((reorder p ips).getD 0 []) = true then
          DialRun.failed (DialError.intranetRejected ((reorder p ips).getD 0 []))
        else if d.Level = 0 ∨ d.Level = 1 then
          DialRun.serial (dialSerial d nw (reorder p ips) port tlsConfig)
        else
          DialRun.racing (dialParallel d nw
            (if (reorder p ips).length = 1 then reorder p ips ++ [(reorder p ips).getD 0 []]
            else reorder p ips) port tlsConfig arrival)) ∧
    (dialContext plainDialer allAnswer "foo:443" (some ("foo", 443))
        (Except.ok [ip6a, ip1111]) false []).outcome =
      Outcome.conn ⟨ip1111, 443, 0, none, false⟩ ∧
    (dialContext { plainDialer with PreferIPv6 := true } allAnswer "foo:443"
        (some ("foo", 443)) (Except.ok [ip1111, ip6a]) false []).outcome =
      Outcome.conn ⟨ip6a, 443, 0, none, false⟩ := by
  refine ⟨?_, ?_, reorder_perm p ips, (reorder_perm p ips).length_eq, ?_, by decide, by decide,
    ?_, by decide, by decide⟩
  · rintro ⟨h2, h1, hz⟩
    rcases ips with _ | ⟨a, rest⟩
    · simp at h2
    rcases nil_or_snoc rest with rfl | ⟨mid, z, rfl⟩
    · simp at h2
    rw [getD_last_concat a mid z] at hz
    simp only [List.getD_cons_zero] at h1
    exact ⟨a, mid, z, rfl, by rw [reorder_concat p a mid z]; simp [h1, hz]⟩
  · intro h
    rcases ips with _ | ⟨a, rest⟩
    · simp [reorder]
    rcases nil_or_snoc rest with rfl | ⟨mid, z, rfl⟩
    · simp [reorder]
    rw [getD_last_concat a mid z] at h
    simp only [List.getD_cons_zero] at h
    have h2 : 2 ≤ (a :: (mid ++ [z])).length := by simp
    have : ¬ (preferred p a = false ∧ preferred p z = true) := fun hh => h ⟨h2, hh⟩
    rw [reorder_concat p a mid z]
    simp [this]
  · intro i hi hlt
    rcases ips with _ | ⟨a, rest⟩
    · simp [reorder]
    rcases nil_or_snoc rest with rfl | ⟨mid, z, rfl⟩
    · simp [reorder]
    rw [reorder_concat p a mid z]
    split
    · cases i with
      | zero => omega
      | succ j =>
        have hj : j < mid.length := by simp at hlt; omega
        simp [List.getElem?_append_left, hj]
    · rfl
  · intro d nw address host port tlsConfig arrival hp hne
    subst hp
    exact dialContext_dials_reordered d nw address host port ips tlsConfig arrival hne

/-- C7 fails as stated: `[2001:db8::1, 1.1.1.1, 2001:db8::2]` holds both
families, yet with `PreferIPv6 = false` the ordering leaves it unchanged, the
first candidate is IPv6, and the serial dial whose first attempt succeeds
returns a connection to it. -/
theorem C7_counterexample :
    (∃ x ∈ [ip6a, ip1111, ip6b], isIPv4 x = true) ∧
    (∃ y ∈ [ip6a, ip1111, ip6b], isIPv4 y = false) ∧
    reorder false [ip6a, ip1111, ip6b] = [ip6a, ip1111, ip6b] ∧
    preferred false ((reorder false [ip6a, ip1111, ip6b]).getD 0 []) = false ∧
    (dialContext plainDialer allAnswer "foo:443" (some ("foo", 443))
        (Except.ok [ip6a, ip1111, ip6b]) false []).outcome =
      Outcome.conn ⟨ip6a, 443, 0, none, false⟩ := by
  refine ⟨⟨ip1111, by simp, by decide⟩, ⟨ip6a, by simp, by decide⟩, by decide, by decide,
    by decide⟩

/-- C7, amended. For a resolved sequence that holds both families: when its
first or its last entry is of the preferred family, the first candidate after
the reordering is of the preferred family; when neither end is, so that the
preferred family occurs only strictly inside the sequence, the sequence is left
as it is and the first candidate stays of the other family. `dialContext`
applies its guard to this first candidate and dials the reordered sequence, and
on the serial path a successful first attempt returns a connection to this
first candidate. -/
theorem C7_front_preferred_when_at_an_end (d : TCPDialer) (ips : List IP)
    (hboth : (∃ x ∈ ips, isIPv4 x = true) ∧ (∃ y ∈ ips, isIPv4 y = false)) :
    ((preferred d.PreferIPv6 (ips.getD 0 []) = true ∨
        preferred d.PreferIPv6 (ips.getD (ips.length - 1) []) = true) →
      preferred d.PreferIPv6 ((reorder d.PreferIPv6 ips).getD 0 []) = true) ∧
    ((preferred d.PreferIPv6 (ips.getD 0 []) = false ∧
        preferred d.PreferIPv6 (ips.getD (ips.length - 1) []) = false) →
      reorder d.PreferIPv6 ips = ips ∧
      preferred d.PreferIPv6 ((reorder d.PreferIPv6 ips).getD 0 []) = false) ∧
    (∀ (nw : Network) (address host : String) (port : Int) (tlsConfig : Bool)
        (arrival : List Nat),
      dialContext d nw address (some (host, port)) (Except.ok ips) tlsConfig arrival =
        if d.RejectIntranet = true ∧
            IsReservedIP ((reorder d.PreferIPv6 ips).getD 0 []) = true then
          DialRun.failed (DialError.intranetRejected ((reorder d.PreferIPv6 ips).getD 0 []))
        else if d.Level = 0 ∨ d.Level = 1 then
          DialRun.serial (dialSerial d nw (reorder d.PreferIPv6 ips) port tlsConfig)
        else
          DialRun.racing (dialParallel d nw
            (if (reorder d.PreferIPv6 ips).length = 1 then
              reorder d.PreferIPv6 ips ++ [(reorder d.PreferIPv6 ips).getD 0 []]
            else reorder d.PreferIPv6 ips) port tlsConfig arrival)) ∧
    (∀ (nw : Network) (address host : String) (port : Int) (tlsConfig : Bool)
        (arrival : List Nat),
      ¬ (d.RejectIntranet = true ∧
        IsReservedIP ((reorder d.PreferIPv6 ips).getD 0 []) = true) →
      (d.Level = 0 ∨ d.Level = 1) →
      succeeds nw tlsConfig 0 ((reorder d.PreferIPv6 ips).getD 0 []) = true →
      (dialContext d nw address (some (host, port)) (Except.ok ips) tlsConfig arrival).outcome =
        Outcome.conn ⟨(reorder d.PreferIPv6 ips).getD 0 [], port, 0, none, tlsConfig⟩) := by
  have hne : ips ≠ [] := by
    obtain ⟨⟨x, hx, _⟩, _⟩ := hboth
    intro h0
    rw [h0] at hx
    simp at hx
  refine ⟨?_, ?_, ?_, ?_⟩
  · intro hend
    rcases ips with _ | ⟨a, rest⟩
    · exact absurd rfl hne
    rcases nil_or_snoc rest with rfl | ⟨mid, z, rfl⟩
    · simpa [reorder] using hend
    rw [getD_last_concat a mid z] at hend
    rw [reorder_concat d.PreferIPv6 a mid z]
    simp only [List.getD_cons_zero] at hend
    by_cases ha : preferred d.PreferIPv6 a = true
    · simp [ha]
    · have hz : preferred d.PreferIPv6 z = true := by
        rcases hend with h | h
        · exact absurd h ha
        · exact h
      have ha2 : preferred d.PreferIPv6 a = false := by simpa using ha
      simp [ha2, hz]
  · rintro ⟨h1, hz⟩
    rcases ips with _ | ⟨a, rest⟩
    · exact absurd rfl hne
    rcases nil_or_snoc rest with rfl | ⟨mid, z, rfl⟩
    · exact ⟨by simp [reorder], by simpa [reorder] using h1⟩
    rw [getD_last_concat a mid z] at hz
    simp only [List.getD_cons_zero] at h1
    rw [reorder_concat d.PreferIPv6 a mid z]
    simp [h1, hz]
  · intro nw address host port tlsConfig arrival
    exact dialContext_dials_reordered d nw address host port ips tlsConfig arrival hne
  · intro nw address host port tlsConfig arrival hguard hserial hfirst
    exact dialContext_first_attempt d nw address host port ips tlsConfig arrival hne hguard
      hserial hfirst

/-- C7, amended, at `PreferIPv6 = false` and `[2001:db8::1, 1.1.1.1]`: the
first candidate is `1.1.1.1` and the serial dial connects to it. -/
theorem C7_front_preferred_witness :
    ((∃ x ∈ [ip6a, ip1111], isIPv4 x = true) ∧ (∃ y ∈ [ip6a, ip1111], isIPv4 y = false)) ∧
    preferred plainDialer.PreferIPv6 ((reorder plainDialer.PreferIPv6 [ip6a, ip1111]).getD 0 [])
      = true ∧
    (dialContext plainDialer allAnswer "foo:443" (some ("foo", 443))
        (Except.ok [ip6a, ip1111]) false []).outcome =
      Outcome.conn ⟨ip1111, 443, 0, none, false⟩ :=
  have h := C7_front_preferred_when_at_an_end plainDialer [ip6a, ip1111]
    ⟨⟨ip1111, by simp, by decide⟩, ⟨ip6a, by simp, by decide⟩⟩
  ⟨⟨⟨ip1111, by simp, by decide⟩, ⟨ip6a, by simp, by decide⟩⟩,
    h.1 (Or.inr (by decide)),
    h.2.2.2 allAnswer "foo:443" "foo" 443 false [] (by decide) (by decide) (by decide)⟩

/-- C1 fails as stated: with `RejectIntranet` on and the resolved sequence
`[8.8.8.8, 10.0.0.1]`, a refused connect to the first candidate makes the serial
dial return a connection to `10.0.0.1`, which `IsReservedIP` classifies as
reserved. -/
theorem C1_counterexample :
    guardedDialer.RejectIntranet = true ∧
    (dialContext guardedDialer onlySecondAnswers "foo:443" (some ("foo", 443))
        (Except.ok [[8, 8, 8, 8], [10, 0, 0, 1]]) false []).outcome =
      Outcome.conn ⟨[10, 0, 0, 1], 443, 1, none, false⟩ ∧
    IsReservedIP [10, 0, 0, 1] = true := by
  refine ⟨rfl, ?_, by decide⟩
  decide

/-- C1, amended. With `RejectIntranet` on, whenever `dialContext` returns a
connection the first candidate of the reordered sequence is not reserved and
the connection was made to one of the resolved addresses; the connection's
address is not reserved when it was made to the candidate at index 0, and when
the resolver returned a single address. -/
theorem C1_first_candidate_not_reserved (d : TCPDialer) (nw : Network) (address : String)
    (split : Option (String × Int)) (resolved : Except String (List IP)) (tlsConfig : Bool)
    (arrival : List Nat) (c : Conn) (hd : d.RejectIntranet = true)
    (h : (dialContext d nw address split resolved tlsConfig arrival).outcome = Outcome.conn c) :
    ∃ ips, resolved = Except.ok ips ∧
      IsReservedIP ((reorder d.PreferIPv6 ips).getD 0 []) = false ∧
      c.remote ∈ ips ∧
      (c.index = 0 → IsReservedIP c.remote = false) ∧
      (ips.length = 1 → IsReservedIP c.remote = false) := by
  unfold dialContext at h
  rcases split with _ | ⟨host, port⟩
  · simp [DialRun.outcome] at h
  rcases resolved with msg | ips
  · simp [DialRun.outcome] at h
  simp only at h
  have hperm := reorder_perm d.PreferIPv6 ips
  split at h
  · simp [DialRun.outcome] at h
  rename_i hlen
  split at h
  · simp [DialRun.outcome] at h
  rename_i hres
  have hfirst : IsReservedIP ((reorder d.PreferIPv6 ips).getD 0 []) = false := by
    simpa [hd] using hres
  have key : ∃ cands : List IP, cands.get? c.index = some c.remote ∧
      (cands = reorder d.PreferIPv6 ips ∨
        ((reorder d.PreferIPv6 ips).length = 1 ∧
          cands = reorder d.PreferIPv6 ips ++ [(reorder d.PreferIPv6 ips).getD 0 []])) := by
    split at h
    · simp only [DialRun.outcome, dialSerial] at h
      obtain ⟨k, hk1, hk2⟩ := dialSerialLoop_conn_candidate _ _ _ _ _ _ _ c h
      refine ⟨_, ?_, Or.inl rfl⟩
      rw [hk1, Nat.zero_add]
      exact hk2
    · simp only [DialRun.outcome] at h
      have h1 := (dialParallel_conn_candidate _ _ _ _ _ _ c h).1
      split at h1
      · rename_i hone
        exact ⟨_, h1, Or.inr ⟨hone, rfl⟩⟩
      · exact ⟨_, h1, Or.inl rfl⟩
  obtain ⟨cands, hget, hc⟩ := key
  have hmem : c.remote ∈ cands := by
    exact List.get?_mem hget
  have hsub : ∀ x ∈ cands, x ∈ reorder d.PreferIPv6 ips := by
    intro x hx
    rcases hc with rfl | ⟨hone, rfl⟩
    · exact hx
    · rcases List.mem_append.1 hx with hx | hx
      · exact hx
      · simp only [List.mem_singleton] at hx
        subst hx
        match hr : reorder d.PreferIPv6 ips, hone with
        | [y], _ => simp
  have hhead : cands.getD 0 [] = (reorder d.PreferIPv6 ips).getD 0 [] := by
    rcases hc with rfl | ⟨hone, rfl⟩
    · rfl
    · match hr : reorder d.PreferIPv6 ips, hone with
      | [y], _ => simp
  refine ⟨ips, rfl, hfirst, hperm.mem_iff.1 (hsub _ hmem), ?_, ?_⟩
  · intro h0
    rw [h0] at hget
    have : c.remote = cands.getD 0 [] := by
      rw [List.get?_eq_getElem?] at hget
      simp [List.getD, hget]
    rw [this, hhead]
    exact hfirst
  · intro hone
    have hrlen : (reorder d.PreferIPv6 ips).length = 1 := by
      rw [(reorder_perm d.PreferIPv6 ips).length_eq]; exact hone
    have hin := hsub _ hmem
    match hr : reorder d.PreferIPv6 ips, hrlen with
    | [y], _ =>
      rw [hr] at hin hfirst
      simp only [List.mem_singleton] at hin
      rw [hin]
      simpa using hfirst

/-- C1, amended, at the resolved sequence `[8.8.8.8]` on the serial path. -/
theorem C1_first_candidate_not_reserved_witness :
    guardedDialer.RejectIntranet = true ∧
    (dialContext guardedDialer allAnswer "foo:443" (some ("foo", 443))
        (Except.ok [[8, 8, 8, 8]]) false []).outcome =
      Outcome.conn ⟨[8, 8, 8, 8], 443, 0, none, false⟩ ∧
    ∃ ips, (Except.ok [[8, 8, 8, 8]] : Except String (List IP)) = Except.ok ips ∧
      IsReservedIP ((reorder guardedDialer.PreferIPv6 ips).getD 0 []) = false ∧
      [8, 8, 8, 8] ∈ ips ∧
      ((0 : Nat) = 0 → IsReservedIP [8, 8, 8, 8] = false) ∧
      (ips.length = 1 → IsReservedIP [8, 8, 8, 8] = false) :=
  ⟨rfl, by decide,
    C1_first_candidate_not_reserved guardedDialer allAnswer "foo:443" (some ("foo", 443))
      (Except.ok [[8, 8, 8, 8]]) false [] ⟨[8, 8, 8, 8], 443, 0, none, false⟩ rfl (by decide)⟩

/-- C8. On a non-empty candidate sequence `dialSerial` attempts the candidates
in sequence order; it returns the connection of the first candidate whose TCP
connect succeeds (and whose handshake succeeds when a TLS configuration is
given) and attempts nothing after it; when no candidate succeeds it returns the
failure of the last candidate, after attempting all of them. -/
theorem C8_dialSerial_first_success_or_last_failure (d : TCPDialer) (nw : Network)
    (ips : List IP) (port : Int) (tlsConfig : Bool) (hne : ips ≠ []) :
    (∀ k, k < ips.length → succeeds nw tlsConfig k (ips.getD k []) = true →
      (∀ j, j < k → succeeds nw tlsConfig j (ips.getD j []) = false) →
      dialSerial d nw ips port tlsConfig =
        (Outcome.conn ⟨ips.getD k [], port, k, none, tlsConfig⟩,
          attemptsUpTo nw tlsConfig 0 ips (k + 1))) ∧
    ((∀ j, j < ips.length → succeeds nw tlsConfig j (ips.getD j []) = false) →
      dialSerial d nw ips port tlsConfig =
        (Outcome.error (failureOf nw (ips.length - 1) (ips.getD (ips.length - 1) [])),
          attemptsUpTo nw tlsConfig 0 ips ips.length)) := by
  constructor
  · intro k hk hs hf
    have := dialSerialLoop_success nw port tlsConfig ips.length ips 0 none k (by simp) hk
      (by simpa using hs) (fun j hj => by simpa using hf j hj)
    simpa [dialSerial] using this
  · intro hf
    exact dialSerialLoop_failure nw port tlsConfig ips.length ips 0 none (by simp) hne
      (fun j hj => by simpa using hf j hj)

/-- C8 at two candidates of which the first refuses the connect, with TLS. -/
theorem C8_dialSerial_witness :
    [ip6a, ip1111] ≠ [] ∧
    dialSerial guardedDialer firstRefuses [ip6a, ip1111] 443 true =
      (Outcome.conn ⟨ip1111, 443, 1, none, true⟩,
        [Attempt.tcp 0, Attempt.tcp 1, Attempt.tls 1]) :=
  ⟨by decide,
    (C8_dialSerial_first_success_or_last_failure guardedDialer firstRefuses [ip6a, ip1111] 443
      true (by decide)).1 1 (by decide) (by decide) (by decide)⟩

/-- C9 fails on the code: with `Level = -1` the dial does not take the serial
path; it enters `dialParallel`, where `ips[:level]` is sliced with the bound
`-1` and panics. -/
theorem C9_negative_level_panics :
    ∃ r, dialContext negativeLevelDialer allAnswer "foo:443" (some ("foo", 443))
        (Except.ok [ip1111]) false [0, 1] = DialRun.racing r ∧
      r.outcome = Outcome.crash (Crash.sliceBounds (-1)) :=
  ⟨_, rfl, by decide⟩

/-- C10 fails on the code: with the dialer of `main.go` (`KeepAlive` 30 s,
`Level` 1) a successful serial dial returns a connection on which keepalive was
not enabled; the same dial on the racing path (`Level` 2) enables it with the
period `KeepAlive`. -/
theorem C10_serial_path_leaves_keepalive_off :
    mainDialer.KeepAlive > 0 ∧
    (dialContext mainDialer allAnswer "foo:443" (some ("foo", 443))
        (Except.ok [ip1111]) false []).outcome =
      Outcome.conn ⟨ip1111, 443, 0, none, false⟩ ∧
    (dialContext { mainDialer with Level := 2 } allAnswer "foo:443" (some ("foo", 443))
        (Except.ok [ip1111]) false [0, 1]).outcome =
      Outcome.conn ⟨ip1111, 443, 0, some 30000000000, false⟩ := by
  refine ⟨by decide, by decide, by decide⟩

/-- C4 fails as stated: `x` is present in the static map with an empty
sequence, and `LookupIP` consults the DNS cache and returns its `[1.2.3.4]`. -/
theorem C4_counterexample :
    IsStaticRecord emptyRecordResolver "x" = true ∧
    emptyRecordResolver.staticGet "x" = some [] ∧
    (LookupIP emptyRecordResolver 0 1 "x").map (fun x => x.result) =
      some (Except.ok [[1, 2, 3, 4]]) ∧
    (LookupIP emptyRecordResolver 0 1 "x").map (fun x => x.consulted) =
      some [Consult.cacheGet "x"] := by
  refine ⟨by decide, by decide, by rfl, by decide⟩

/-- C4, amended. For every name whose static record is a non-empty sequence,
`LookupIP` returns exactly that sequence, for every DNS cache, system resolver
and clock; it consults neither and leaves the resolver as it was. A name that
is present with an empty sequence is resolved like a name that is not static:
for both `LookupIP` is `lookupIP`, with whatever that consults. -/
theorem C4_static_record_wins (r : Resolver) (now fuel : Nat) (name : String) :
    (∀ ips, r.staticGet name = some ips → ips ≠ [] →
      IsStaticRecord r name = true ∧
      LookupIP r now fuel name = some ⟨Except.ok ips, r, []⟩) ∧
    (r.staticGet name = some [] →
      IsStaticRecord r name = true ∧
      LookupIP r now fuel name = lookupIP r now fuel name) ∧
    (r.staticGet name = none →
      IsStaticRecord r name = false ∧
      LookupIP r now fuel name = lookupIP r now fuel name) := by
  refine ⟨?_, ?_, ?_⟩
  · intro ips hrec hne
    have hlen : ips.length > 0 := List.length_pos.2 hne
    refine ⟨by simp [IsStaticRecord, hrec], ?_⟩
    simp [LookupIP, hrec, hlen]
  · intro hrec
    exact ⟨by simp [IsStaticRecord, hrec], by simp [LookupIP, hrec]⟩
  · intro hrec
    exact ⟨by simp [IsStaticRecord, hrec], by simp [LookupIP, hrec]⟩

/-- C4, amended, after `AddStaticRecord("example.test", 1.2.3.4)`, and on the
empty record of `emptyRecordResolver`. -/
theorem C4_static_record_witness :
    (AddStaticRecord bareResolver "example.test" [[1, 2, 3, 4]]).staticGet "example.test" =
      some [[1, 2, 3, 4]] ∧
    ([[1, 2, 3, 4]] : List IP) ≠ [] ∧
    (IsStaticRecord (AddStaticRecord bareResolver "example.test" [[1, 2, 3, 4]]) "example.test"
      = true ∧
    LookupIP (AddStaticRecord bareResolver "example.test" [[1, 2, 3, 4]]) 7 0 "example.test" =
      some ⟨Except.ok [[1, 2, 3, 4]],
        AddStaticRecord bareResolver "example.test" [[1, 2, 3, 4]], []⟩) ∧
    emptyRecordResolver.staticGet "x" = some [] ∧
    (IsStaticRecord emptyRecordResolver "x" = true ∧
    LookupIP emptyRecordResolver 0 1 "x" = lookupIP emptyRecordResolver 0 1 "x") :=
  ⟨by decide, by decide,
    (C4_static_record_wins (AddStaticRecord bareResolver "example.test" [[1, 2, 3, 4]]) 7 0
      "example.test").1 [[1, 2, 3, 4]] (by decide) (by decide),
    by decide,
    (C4_static_record_wins emptyRecordResolver 0 1 "x").2.1 (by decide)⟩

/-- C5 fails as stated: `a` is not static, its fresh cache entry is the CNAME
`b`, `b` has the static record `[1.2.3.4]`, and `LookupIP(a)` returns the
`[5.6.7.8]` that the DNS cache holds for `b`. -/
theorem C5_counterexample :
    (cnameResolver.staticGet "a").getD [] = [] ∧
    cnameResolver.DNSCache.bind (fun c => c.GetNotStale 0 "a") = some (CacheValue.cname "b") ∧
    cnameResolver.staticGet "b" = some [[1, 2, 3, 4]] ∧
    (LookupIP cnameResolver 0 2 "a").map (fun x => x.result) =
      some (Except.ok [[5, 6, 7, 8]]) := by
  refine ⟨by decide, by decide, by decide, by rfl⟩

/-- C5, amended. For a name without a non-empty static record whose fresh
cache entry is a CNAME, `LookupIP` returns what `lookupIP` returns for the
target; when the cache holds a fresh IP list for the target, that list is the
answer. The static record of the target is not read on this path. -/
theorem C5_cname_target_resolved_by_lookupIP (r : Resolver) (now fuel : Nat)
    (name target : String)
    (hstatic : (r.staticGet name).getD [] = [])
    (hcache : r.DNSCache.bind (fun c => c.GetNotStale now name) =
      some (CacheValue.cname target)) :
    LookupIP r now (fuel + 1) name =
      (lookupIP r now fuel target).map
        (LookupReturn.after_consulting [Consult.cacheGet name]) ∧
    (∀ l, r.DNSCache.bind (fun c => c.GetNotStale now target) = some (CacheValue.ips l) →
      (LookupIP r now (fuel + 2) name).map (fun x => x.result) = some (Except.ok l)) := by
  have hsome : r.DNSCache.isSome = true := by
    cases hc : r.DNSCache with
    | none => rw [hc] at hcache; simp at hcache
    | some c => rfl
  have hL : ∀ f, LookupIP r now (f + 1) name =
      (lookupIP r now f target).map (LookupReturn.after_consulting [Consult.cacheGet name]) := by
    intro f
    simp only [LookupIP, hstatic, List.length_nil, gt_iff_lt, Nat.lt_irrefl, if_false]
    rw [lookupIP]
    simp only [hcache, hsome, if_true]
  refine ⟨hL fuel, ?_⟩
  intro l hl
  rw [hL (fuel + 1), lookupIP]
  simp only [hl, Option.map_some']
  rfl

/-- C5, amended, at the cache `a -> CNAME b`, `b -> [5.6.7.8]`. -/
theorem C5_cname_target_witness :
    (cnameResolver.staticGet "a").getD [] = [] ∧
    cnameResolver.DNSCache.bind (fun c => c.GetNotStale 0 "a") = some (CacheValue.cname "b") ∧
    (LookupIP cnameResolver 0 (1 + 1) "a" =
      (lookupIP cnameResolver 0 1 "b").map
        (LookupReturn.after_consulting [Consult.cacheGet "a"]) ∧
    (∀ l, cnameResolver.DNSCache.bind (fun c => c.GetNotStale 0 "b") = some (CacheValue.ips l) →
      (LookupIP cnameResolver 0 (1 + 2) "a").map (fun x => x.result) = some (Except.ok l))) :=
  ⟨by decide, by decide,
    C5_cname_target_resolved_by_lookupIP cnameResolver 0 1 "a" "b" (by decide) (by decide)⟩

/-- Once the shared body is closed every further caller fails to read it. -/
theorem runCallers_closed (regex : String → Option (List String)) (n : Nat) (b : Body)
    (h : b.closed = true) :
    runCallers regex none n b =
      List.replicate n (SearchReturn.error "http: read on closed response body") := by
  induction n generalizing b with
  | zero => rfl
  | succ n ih =>
    have hstep : ipinfoSearch regex none b =
        (SearchReturn.error "http: read on closed response body", { b with closed := true }) := by
      simp [ipinfoSearch, ReadAll, h]
    simp only [runCallers, hstep, List.replicate_succ]
    rw [ih _ rfl]

/-- Every return after a successful `Do` closes the body. -/
theorem ipinfoSearch_closes (regex : String → Option (List String)) (b : Body) :
    (ipinfoSearch regex none b).2.closed = true := by
  unfold ipinfoSearch
  simp only
  split
  · rfl
  · split <;> rfl

/-- C2 fails on the code: the callers coalesced on one round trip share one
response body. The first caller reads it whole and closes it; every further
caller fails to read. At two callers one obtains the item and the other an
error. -/
theorem C2_shared_body_read_once (regex : String → Option (List String)) (data : String)
    (n : Nat) :
    coalescedSearch regex (Except.ok data) (n + 1) =
      (1, (ipinfoSearch regex none ⟨data, false⟩).1 ::
        List.replicate n (SearchReturn.error "http: read on closed response body")) ∧
    coalescedSearch sampleRegex (Except.ok "location=US;isp=ACME") 2 =
      (1, [SearchReturn.item ⟨"US", "ACME"⟩,
        SearchReturn.error "http: read on closed response body"]) := by
  refine ⟨?_, by decide⟩
  simp only [coalescedSearch, runCallers]
  rw [runCallers_closed regex n _ (ipinfoSearch_closes regex _)]

/-- On a four-byte address the code classifies exactly the blocks of
`inCodedBlocks`. -/
theorem IsReservedIP_four_bytes (b0 b1 b2 b3 : Nat) :
    IsReservedIP [b0, b1, b2, b3] = inCodedBlocks b0 b1 b2 := by
  have h4 : To4 [b0, b1, b2, b3] = some [b0, b1, b2, b3] := by simp [To4]
  unfold IsReservedIP
  rw [h4]
  simp only
  split <;> try (simp [inCodedBlocks]; done)
  all_goals (try split) <;> try (simp [inCodedBlocks]; done)
  all_goals (try split) <;> try (simp [inCodedBlocks]; done)
  all_goals (simp only [inCodedBlocks]; simp_all <;> omega)

/-- C3 fails on the code: `225.0.0.1` and `255.255.255.255` lie in the listed
blocks 224/4 and 240/4 and `IsReservedIP` returns false for them. The stated
witnesses hold: true for `10.0.0.1` and `100.64.0.1`, false for `8.8.8.8` and
`100.128.0.1`; a 16-byte IPv6 address is not classified. -/
theorem C3_IsReservedIP_misses_most_of_224_and_240 :
    inListedBlocks 225 0 0 = true ∧ IsReservedIP [225, 0, 0, 1] = false ∧
    inListedBlocks 255 255 255 = true ∧ IsReservedIP [255, 255, 255, 255] = false ∧
    IsReservedIP [10, 0, 0, 1] = true ∧ IsReservedIP [100, 64, 0, 1] = true ∧
    IsReservedIP [8, 8, 8, 8] = false ∧ IsReservedIP [100, 128, 0, 1] = false ∧
    IsReservedIP ip6a = false := by
  decide

/-- The drainer that waits for as many results as are still to arrive receives
all of them. -/
theorem drain_all (lane : List dialResult) : drain lane.length lane = lane := by
  induction lane with
  | nil => rfl
  | cons x lane ih => simp [drain, ih]

/-- The collecting loop on a channel that delivers exactly the awaited number
of results: it stops at the first result without error, hands the rest to the
drainer, and between them every result is received once. -/
theorem collect_first_success : ∀ (pre : List dialResult) (w : dialResult)
    (post : List dialResult) (r : dialResult),
    (∀ x ∈ pre, x.Err ≠ none) → w.Err = none →
    collect (pre ++ w :: post).length (pre ++ w :: post) r =
      ((match w.Conn with
        | some c => Outcome.conn c
        | none => Outcome.nothing), pre ++ [w], post) := by
  intro pre
  induction pre with
  | nil =>
    intro w post r _ hw
    simp only [List.nil_append, List.length_cons]
    unfold collect
    simp only [hw]
    cases hc : w.Conn <;> simp [drain_all]
  | cons x pre ih =>
    intro w post r hpre hw
    have hx : x.Err ≠ none := hpre x (by simp)
    obtain ⟨e, he⟩ := Option.ne_none_iff_exists'.1 hx
    have hrec := ih w post x (fun y hy => hpre y (List.mem_cons_of_mem _ hy)) hw
    simp only [List.cons_append, List.length_cons]
    unfold collect
    simp only [he, hrec]

/-- When every delivered result carries an error the collecting loop receives
all of them and returns the error of the last. -/
theorem collect_all_fail : ∀ (lane : List dialResult) (r : dialResult),
    (∀ x ∈ lane, x.Err ≠ none) →
    collect lane.length lane r =
      ((match (lane.getLast?.getD r).Err with
        | some e => Outcome.error e
        | none => Outcome.nothing), lane, []) := by
  intro lane
  induction lane with
  | nil =>
    intro r _
    simp only [List.length_nil, List.getLast?_nil, Option.getD_none]
    unfold collect
    cases r.Err <;> rfl
  | cons x lane ih =>
    intro r hall
    have hx : x.Err ≠ none := hall x (by simp)
    obtain ⟨e, he⟩ := Option.ne_none_iff_exists'.1 hx
    have hrec := ih x (fun y hy => hall y (List.mem_cons_of_mem _ hy))
    simp only [List.length_cons]
    unfold collect
    simp only [he, hrec]
    cases lane with
    | nil => simp
    | cons y lane =>
      have hl : (y :: lane).getLast? = some ((y :: lane).getLast (by simp)) :=
        List.getLast?_eq_getLast _ (by simp)
      simp [List.getLast?_cons_cons, hl]

/-- A worker reports no error exactly when it reports a connection. -/
theorem worker_err_none (d : TCPDialer) (nw : Network) (port : Int) (tlsConfig : Bool)
    (i : Nat) (ip : IP) (h : (worker d nw port tlsConfig i ip).Err = none) :
    ∃ c, (worker d nw port tlsConfig i ip).Conn = some c := by
  unfold worker at h ⊢
  by_cases hc : nw.connect i ip = false
  · simp [hc] at h
  · by_cases ht : tlsConfig = false
    · simp [hc, ht]
    · by_cases hh : nw.handshake i ip = false
      · simp [hc, ht, hh] at h
      · simp [hc, ht, hh]

/-- When the arrival order names each launched worker, the channel delivers the
workers' results in that order. -/
theorem laneOf_eq_arrived (d : TCPDialer) (nw : Network) (ips ips1 : List IP) (port : Int)
    (tlsConfig : Bool) (level : Nat) (arrival : List Nat)
    (hin : ∀ i ∈ arrival, i < level)
    (hget : ∀ i, i < level → ips1.get? i = some (ips.getD i [])) :
    laneOf d nw ips1 port tlsConfig level arrival =
      arrivedResults d nw ips port tlsConfig arrival := by
  unfold laneOf arrivedResults
  induction arrival with
  | nil => rfl
  | cons i arrival ih =>
    have hi : i < level := hin i (by simp)
    have ih2 := ih (fun j hj => hin j (List.mem_cons_of_mem _ hj))
    simp only [List.filterMap_cons, hi, if_true, hget i hi, Option.map_some', List.map_cons]
    rw [ih2]

/-- With a level that is not negative the racing dial launches
`min(len(ips), Level)` workers on the sequence trimmed to that length. -/
theorem dialParallel_eq_raceWorkers (d : TCPDialer) (nw : Network) (ips : List IP) (port : Int)
    (tlsConfig : Bool) (arrival : List Nat) (hlevel : 0 ≤ d.Level) :
    dialParallel d nw ips port tlsConfig arrival =
      raceWorkers d nw (ips.take (min ips.length d.Level.toNat)) port tlsConfig
        (min ips.length d.Level.toNat) arrival := by
  unfold dialParallel
  by_cases h : (ips.length : Int) > d.Level
  · have hneg : ¬ d.Level < 0 := by omega
    have hmin : min ips.length d.Level.toNat = d.Level.toNat := by
      apply Nat.min_eq_right
      omega
    simp only [h, hneg, if_true, if_false, hmin]
  · have hneg : ¬ (ips.length : Int) < 0 := by omega
    have hmin : min ips.length d.Level.toNat = ips.length := by
      apply Nat.min_eq_left
      omega
    simp only [h, hneg, if_false, hmin, List.take_length]

/-- C11. On the racing path (`Level >= 2`), for every order in which the
results of the launched workers arrive: one worker is launched per candidate of
the trimmed sequence; the caller and the drainer together receive every
worker's result exactly once, in arrival order; the dial returns the first
result without error in arrival order, the results after it all go to the
drainer, which closes every connection among them; and when every worker fails
the dial returns the error of the last result to arrive. -/
theorem C11_race_first_success_and_drain (d : TCPDialer) (nw : Network) (ips : List IP)
    (port : Int) (tlsConfig : Bool) (arrival : List Nat)
    (hlevel : 2 ≤ d.Level) (hne : ips ≠ [])
    (harr : arrival.Perm (List.range (min ips.length d.Level.toNat))) :
    (dialParallel d nw ips port tlsConfig arrival).launched = min ips.length d.Level.toNat ∧
    (dialParallel d nw ips port tlsConfig arrival).received ++
        (dialParallel d nw ips port tlsConfig arrival).drained =
      arrivedResults d nw ips port tlsConfig arrival ∧
    (∀ pre w post, arrivedResults d nw ips port tlsConfig arrival = pre ++ w :: post →
      (∀ x ∈ pre, x.Err ≠ none) → w.Err = none →
      (∃ c, w.Conn = some c ∧
        (dialParallel d nw ips port tlsConfig arrival).outcome = Outcome.conn c) ∧
      (dialParallel d nw ips port tlsConfig arrival).received = pre ++ [w] ∧
      (dialParallel d nw ips port tlsConfig arrival).drained = post ∧
      (dialParallel d nw ips port tlsConfig arrival).closed =
        post.filterMap (fun r1 => r1.Conn)) ∧
    ((∀ x ∈ arrivedResults d nw ips port tlsConfig arrival, x.Err ≠ none) →
      ∃ last e, (arrivedResults d nw ips port tlsConfig arrival).getLast? = some last ∧
        last.Err = some e ∧
        (dialParallel d nw ips port tlsConfig arrival).outcome = Outcome.error e ∧
        (dialParallel d nw ips port tlsConfig arrival).received =
          arrivedResults d nw ips port tlsConfig arrival ∧
        (dialParallel d nw ips port tlsConfig arrival).drained = []) := by
  have hrun := dialParallel_eq_raceWorkers d nw ips port tlsConfig arrival (by omega)
  have hin : ∀ i ∈ arrival, i < min ips.length d.Level.toNat := by
    intro i hi
    exact List.mem_range.1 (harr.mem_iff.1 hi)
  have hget : ∀ i, i < min ips.length d.Level.toNat →
      (ips.take (min ips.length d.Level.toNat)).get? i = some (ips.getD i []) := by
    intro i hi
    have hlt : i < ips.length := Nat.lt_of_lt_of_le hi (Nat.min_le_left _ _)
    rw [List.get?_eq_getElem?, List.getElem?_take]
    simp [hi, List.getD, List.getElem?_eq_getElem hlt]
  have hlane := laneOf_eq_arrived d nw ips _ port tlsConfig _ arrival hin hget
  have hlen : (arrivedResults d nw ips port tlsConfig arrival).length =
      min ips.length d.Level.toNat := by
    simp [arrivedResults, harr.length_eq]
  have hpos : 0 < min ips.length d.Level.toNat := by
    have h1 : 0 < ips.length := List.length_pos.2 hne
    have h2 : 0 < d.Level.toNat := by omega
    exact Nat.lt_min.2 ⟨h1, h2⟩
  rw [hrun]
  unfold raceWorkers
  simp only [hlane, ParallelRun.closed]
  rw [← hlen]
  refine ⟨trivial, ?_, ?_, ?_⟩
  · by_cases hall : ∀ x ∈ arrivedResults d nw ips port tlsConfig arrival, x.Err ≠ none
    · rw [collect_all_fail _ _ hall]
      simp
    · have hex : ∃ x ∈ arrivedResults d nw ips port tlsConfig arrival, x.Err = none := by
        by_contra hcon
        exact hall (fun x hx hnone => hcon ⟨x, hx, hnone⟩)
      obtain ⟨pre, w, post, hsplit, hpre, hw⟩ :
          ∃ pre w post, arrivedResults d nw ips port tlsConfig arrival = pre ++ w :: post ∧
            (∀ x ∈ pre, x.Err ≠ none) ∧ w.Err = none := by
        generalize arrivedResults d nw ips port tlsConfig arrival = lane at hex
        induction lane with
        | nil => obtain ⟨x, hx, _⟩ := hex; simp at hx
        | cons y lane ih =>
          by_cases hy : y.Err = none
          · exact ⟨[], y, lane, rfl, by simp, hy⟩
          · have hex2 : ∃ x ∈ lane, x.Err = none := by
              obtain ⟨x, hx, hxe⟩ := hex
              rcases List.mem_cons.1 hx with rfl | hx
              · exact absurd hxe hy
              · exact ⟨x, hx, hxe⟩
            obtain ⟨pre, w, post, hs, hp, hw⟩ := ih hex2
            refine ⟨y :: pre, w, post, by simp [hs], ?_, hw⟩
            intro x hx
            rcases List.mem_cons.1 hx with rfl | hx
            · exact hy
            · exact hp x hx
      rw [hsplit, collect_first_success pre w post _ hpre hw]
      simp
  · intro pre w post hsplit hpre hw
    have hmem : w ∈ arrivedResults d nw ips port tlsConfig arrival := by
      rw [hsplit]; simp
    obtain ⟨i, _, hwi⟩ := List.mem_map.1 hmem
    have hconn : ∃ c, w.Conn = some c := by
      rw [← hwi] at hw ⊢
      exact worker_err_none d nw port tlsConfig i _ hw
    obtain ⟨c, hc⟩ := hconn
    rw [hsplit, collect_first_success pre w post _ hpre hw]
    exact ⟨⟨c, hc, by simp [hc]⟩, rfl, rfl, rfl⟩
  · intro hall
    have hne2 : arrivedResults d nw ips port tlsConfig arrival ≠ [] := by
      intro h0
      rw [h0] at hlen
      simp at hlen
      omega
    have hl : (arrivedResults d nw ips port tlsConfig arrival).getLast? =
        some ((arrivedResults d nw ips port tlsConfig arrival).getLast hne2) :=
      List.getLast?_eq_getLast _ hne2
    have hlast := hall _ (List.getLast_mem hne2)
    obtain ⟨e, he⟩ := Option.ne_none_iff_exists'.1 hlast
    refine ⟨_, e, hl, he, ?_, ?_, ?_⟩
    · rw [collect_all_fail _ _ hall, hl]
      simp [he]
    · rw [collect_all_fail _ _ hall]
    · rw [collect_all_fail _ _ hall]

/-- C11 at two candidates of which only the second accepts the connect, with
the failing result arriving last: the connection of worker 1 is returned and
the drainer receives the one remaining result. -/
theorem C11_race_witness :
    (2 : Int) ≤ raceDialer.Level ∧ [ip6a, ip1111] ≠ [] ∧
    (dialParallel raceDialer onlySecondAnswers [ip6a, ip1111] 443 false [1, 0]).launched = 2 ∧
    (dialParallel raceDialer onlySecondAnswers [ip6a, ip1111] 443 false [1, 0]).outcome =
      Outcome.conn ⟨ip1111, 443, 1, some 30000000000, false⟩ ∧
    (dialParallel raceDialer onlySecondAnswers [ip6a, ip1111] 443 false [1, 0]).drained =
      [⟨none, some (DialError.connect 0 ip6a)⟩] :=
  have h := C11_race_first_success_and_drain raceDialer onlySecondAnswers [ip6a, ip1111] 443
    false [1, 0] (by decide) (by decide) (by decide)
  ⟨by decide, by decide, h.1, by decide, by decide⟩

/-- One hop: on a fresh CNAME entry `lookupIP` calls itself on the target. -/
theorem lookupIP_cname_step (r : Resolver) (now fuel : Nat) (name target : String)
    (h : r.DNSCache.bind (fun c => c.GetNotStale now name) = some (CacheValue.cname target)) :
    lookupIP r now (fuel + 1) name =
      (lookupIP r now fuel target).map
        (LookupReturn.after_consulting [Consult.cacheGet name]) := by
  have hsome : r.DNSCache.isSome = true := by
    cases hc : r.DNSCache with
    | none => rw [hc] at h; simp at h
    | some c => rfl
  rw [lookupIP]
  simp only [h, hsome, if_true]

/-- On a name without a fresh CNAME entry `lookupIP` returns at once. -/
theorem lookupIP_returns_without_cname (r : Resolver) (now fuel : Nat) (name : String)
    (h : ∀ t, r.DNSCache.bind (fun c => c.GetNotStale now name) ≠ some (CacheValue.cname t)) :
    (lookupIP r now (fuel + 1) name).isSome = true := by
  rw [lookupIP]
  split
  · rfl
  · rename_i t ht
    exact absurd ht (h t)
  · rfl
  · split
    · rfl
    · split
      · rfl
      · split
        · split <;> rfl
        · rfl

/-- Along a chain of `k` fresh CNAME entries `lookupIP` spends one call per
entry and then answers as for the last name. -/
theorem lookupIP_follows_chain (r : Resolver) (now : Nat) :
    ∀ (k : Nat) (name last : String), followCNAME r now k name = some last →
      (∀ fuel, fuel ≤ k → lookupIP r now fuel name = none ∨ fuel = k) ∧
      ∃ probes : List Consult, probes.length = k ∧
        ∀ m, lookupIP r now (k + m) name =
          (lookupIP r now m last).map (LookupReturn.after_consulting probes) := by
  intro k
  induction k with
  | zero =>
    intro name last h
    simp only [followCNAME, Option.some.injEq] at h
    subst h
    refine ⟨fun fuel hf => Or.inr (by omega), [], rfl, ?_⟩
    intro m
    simp only [Nat.zero_add]
    cases lookupIP r now m name with
    | none => rfl
    | some x => simp [LookupReturn.after_consulting]
  | succ k ih =>
    intro name last h
    rw [followCNAME] at h
    split at h
    · rename_i target ht
      obtain ⟨hlow, probes, hlen, hp⟩ := ih target last h
      refine ⟨?_, Consult.cacheGet name :: probes, by simp [hlen], ?_⟩
      · intro fuel hf
        cases fuel with
        | zero => exact Or.inl (by rw [lookupIP])
        | succ f =>
          rcases hlow f (by omega) with h0 | h0
          · left
            rw [lookupIP_cname_step r now f name target ht, h0]
            rfl
          · right
            omega
      · intro m
        have : k + 1 + m = (k + m) + 1 := by omega
        rw [this, lookupIP_cname_step r now (k + m) name target ht, hp m]
        cases lookupIP r now m last with
        | none => rfl
        | some x => simp [LookupReturn.after_consulting]
    · simp at h

/-- On the cycle `a -> b -> a` and on the self-reference `c -> c` no depth of
calls lets `lookupIP` return. -/
theorem lookupIP_cycle_never_returns (fuel : Nat) :
    lookupIP cycleResolver 0 fuel "a" = none ∧ lookupIP cycleResolver 0 fuel "b" = none ∧
      lookupIP cycleResolver 0 fuel "c" = none := by
  induction fuel with
  | zero => exact ⟨by rw [lookupIP], by rw [lookupIP], by rw [lookupIP]⟩
  | succ f ih =>
    obtain ⟨ha, hb, hc⟩ := ih
    refine ⟨?_, ?_, ?_⟩
    · rw [lookupIP_cname_step cycleResolver 0 f "a" "b" (by decide), hb]; rfl
    · rw [lookupIP_cname_step cycleResolver 0 f "b" "a" (by decide), ha]; rfl
    · rw [lookupIP_cname_step cycleResolver 0 f "c" "c" (by decide), hc]; rfl

/-- C12 fails as stated: on the CNAME cycle `a -> b`, `b -> a` and on the name
`c` whose CNAME is itself `lookupIP` returns for no depth of calls, and on a
chain of nine CNAME entries it follows all nine: nine nested calls do not
suffice, the tenth returns after ten cache reads. -/
theorem C12_counterexample :
    (¬ ∃ fuel, (lookupIP cycleResolver 0 fuel "a").isSome = true) ∧
    (¬ ∃ fuel, (lookupIP cycleResolver 0 fuel "c").isSome = true) ∧
    followCNAME chainResolver 0 9 "n0" = some "n9" ∧
    lookupIP chainResolver 0 9 "n0" = none ∧
    (lookupIP chainResolver 0 10 "n0").map (fun x => x.consulted.length) = some 11 := by
  refine ⟨?_, ?_, by decide, by rfl, by rfl⟩
  · rintro ⟨fuel, h⟩
    rw [(lookupIP_cycle_never_returns fuel).1] at h
    simp at h
  · rintro ⟨fuel, h⟩
    rw [(lookupIP_cycle_never_returns fuel).2.2] at h
    simp at h

/-- Hops add up: `a + b` CNAME entries from a name are `a` entries followed by
`b` entries from the name reached. -/
theorem followCNAME_add (r : Resolver) (now : Nat) : ∀ (a b : Nat) (name : String),
    followCNAME r now (a + b) name =
      (followCNAME r now a name).bind (followCNAME r now b) := by
  intro a
  induction a with
  | zero =>
    intro b name
    simp [followCNAME]
  | succ a ih =>
    intro b name
    have e : a + 1 + b = (a + b) + 1 := by omega
    rw [e, followCNAME, followCNAME]
    split
    · rename_i target ht
      exact ih b target
    · rfl

/-- When the chain of fresh CNAME entries from a name never ends, no depth of
calls lets `lookupIP` return. -/
theorem lookupIP_endless_chain (r : Resolver) (now : Nat) : ∀ (fuel : Nat) (name : String),
    (∀ k, (followCNAME r now k name).isSome = true) → lookupIP r now fuel name = none := by
  intro fuel
  induction fuel with
  | zero => intro name _; rw [lookupIP]
  | succ f ih =>
    intro name h
    have h1 := h 1
    rw [followCNAME] at h1
    split at h1
    · rename_i target ht
      rw [lookupIP_cname_step r now f name target ht, ih target ?_]
      · rfl
      · intro k
        have hk := h (k + 1)
        rw [followCNAME] at hk
        simp only [ht] at hk
        exact hk
    · simp at h1

/-- A name that its own CNAME entries lead back to after at least one hop
heads a chain that never ends. -/
theorem followCNAME_cycle_endless (r : Resolver) (now k : Nat) (name : String)
    (hk : 0 < k) (hc : followCNAME r now k name = some name) :
    ∀ m, (followCNAME r now m name).isSome = true := by
  have hround : ∀ j, followCNAME r now (j * k) name = some name := by
    intro j
    induction j with
    | zero => simp [followCNAME]
    | succ j ih =>
      have e : (j + 1) * k = j * k + k := by rw [Nat.add_mul, Nat.one_mul]
      rw [e, followCNAME_add, ih]
      exact hc
  intro m
  have hle : m ≤ m * k := Nat.le_mul_of_pos_right m hk
  have hsplit := followCNAME_add r now m (m * k - m) name
  have e : m + (m * k - m) = m * k := by omega
  rw [e, hround m] at hsplit
  cases hm : followCNAME r now m name with
  | none => rw [hm] at hsplit; simp at hsplit
  | some x => rfl

/-- C12, amended. When the fresh CNAME entries lead from `name` after `k` hops
to a name without a fresh CNAME entry, `lookupIP` returns: with any depth of
calls above `k` it has followed exactly the `k` CNAME values and answers as it
does for the last name; no depth up to `k` suffices, whatever `k` is. When the
chain of fresh CNAME entries from `name` never ends, as on every CNAME cycle
and on every name whose CNAME is itself, `lookupIP` returns for no depth of
calls. -/
theorem C12_lookupIP_returns_on_finite_chain (r : Resolver) (now : Nat) (name : String) :
    (∀ (k : Nat) (last : String), followCNAME r now k name = some last →
      (∀ t, r.DNSCache.bind (fun c => c.GetNotStale now last) ≠
        some (CacheValue.cname t)) →
      (∀ m, (lookupIP r now (k + (m + 1)) name).isSome = true) ∧
      (∃ probes : List Consult, probes.length = k ∧
        ∀ m, lookupIP r now (k + m) name =
          (lookupIP r now m last).map (LookupReturn.after_consulting probes)) ∧
      (∀ fuel, fuel ≤ k → lookupIP r now fuel name = none)) ∧
    ((∀ k, (followCNAME r now k name).isSome = true) →
      ∀ fuel, lookupIP r now fuel name = none) ∧
    (∀ k, 0 < k → followCNAME r now k name = some name →
      ∀ fuel, lookupIP r now fuel name = none) ∧
    (r.DNSCache.bind (fun c => c.GetNotStale now name) = some (CacheValue.cname name) →
      ∀ fuel, lookupIP r now fuel name = none) := by
  refine ⟨?_, ?_, ?_, ?_⟩
  · intro k last hchain hend
    obtain ⟨hlow, probes, hlen, hp⟩ := lookupIP_follows_chain r now k name last hchain
    refine ⟨?_, ⟨probes, hlen, hp⟩, ?_⟩
    · intro m
      rw [hp (m + 1)]
      have := lookupIP_returns_without_cname r now m last hend
      cases hl : lookupIP r now (m + 1) last with
      | none => rw [hl] at this; simp at this
      | some x => rfl
    · intro fuel hf
      rcases hlow fuel hf with h0 | h0
      · exact h0
      · subst h0
        have := hp 0
        simp only [Nat.add_zero] at this
        rw [this, lookupIP]
        rfl
  · intro hend fuel
    exact lookupIP_endless_chain r now fuel name hend
  · intro k hk hc fuel
    exact lookupIP_endless_chain r now fuel name (followCNAME_cycle_endless r now k name hk hc)
  · intro hself fuel
    refine lookupIP_endless_chain r now fuel name
      (followCNAME_cycle_endless r now 1 name (by decide) ?_)
    rw [followCNAME]
    simp only [hself, followCNAME]

/-- C12, amended, on the chain of nine CNAME entries, on the cycle
`a -> b -> a` and on the name `c` whose CNAME is itself. -/
theorem C12_finite_chain_witness :
    followCNAME chainResolver 0 9 "n0" = some "n9" ∧
    (∀ m, (lookupIP chainResolver 0 (9 + (m + 1)) "n0").isSome = true) ∧
    (∀ fuel, fuel ≤ 9 → lookupIP chainResolver 0 fuel "n0" = none) ∧
    followCNAME cycleResolver 0 2 "a" = some "a" ∧
    (∀ fuel, lookupIP cycleResolver 0 fuel "a" = none) ∧
    (∀ fuel, lookupIP cycleResolver 0 fuel "c" = none) :=
  have h := (C12_lookupIP_returns_on_finite_chain chainResolver 0 "n0").1 9 "n9" (by decide)
    (by
      intro t ht
      have hn : chainResolver.DNSCache.bind (fun c => c.GetNotStale 0 "n9") = none := by decide
      rw [hn] at ht
      exact Option.noConfusion ht)
  ⟨by decide, h.1, h.2.2, by decide,
    (C12_lookupIP_returns_on_finite_chain cycleResolver 0 "a").2.2.1 2 (by decide) (by decide),
    (C12_lookupIP_returns_on_finite_chain cycleResolver 0 "c").2.2.2 (by decide)⟩

/-- The first entry that satisfies a test, in a list written around it. -/
theorem find?_first {α : Type} (p : α → Bool) (pre : List α) (x : α) (post : List α)
    (hpre : ∀ y ∈ pre, p y = false) (hx : p x = true) :
    (pre ++ x :: post).find? p = some x := by
  induction pre with
  | nil => simp [List.find?, hx]
  | cons y pre ih =>
    have hy : p y = false := hpre y (by simp)
    simp only [List.cons_append, List.find?, hy]
    exact ih (fun z hz => hpre z (List.mem_cons_of_mem _ hz))

/-- No entry is found when none satisfies the test. -/
theorem find?_none_of_all {α : Type} (p : α → Bool) (l : List α)
    (h : ∀ y ∈ l, p y = false) : l.find? p = none := by
  induction l with
  | nil => rfl
  | cons y l ih =>
    have hy : p y = false := h y (by simp)
    simp only [List.find?, hy]
    exact ih (fun z hz => h z (List.mem_cons_of_mem _ hz))

/-- C14 fails as stated: the search returns the one item with title `X` and an
empty package name; `LookupTitle` for the title `X` answers with status 204 and
no `pkg_name` although an item's title equals the requested one. -/
theorem C14_counterexample :
    (googleplaySearch emptyPkgHandler samplePlay 0 "X" "US").result =
      SearchResult.items [⟨"", "X"⟩] ∧
    (LookupTitle emptyPkgHandler samplePlay 0 (Except.ok ⟨"", "X", "US"⟩)).answer =
      Answer.response ⟨204, "", "", "", ""⟩ := by
  refine ⟨by decide, by decide⟩

/-- C14, amended. After a successful search on a request-key miss,
`LookupTitle` answers with the package name of the first item, in match order,
whose title equals the requested title; the status is 200 when that package
name is not empty and 204 when it is empty; it answers with status 204 and no
`pkg_name` when no item's title equals the requested one. `LookupPackageName`
does the same with the roles of package name and title exchanged. -/
theorem C14_lookup_answers_first_match (h : LookupHandler) (env : Play) (now : Nat)
    (req : LookupRequest) (items : List GoogleplaySearchItem) :
    (h.SearchCache.GetNotStale now ("title:" ++ req.Title ++ ":" ++ req.GEO) = none →
      (googleplaySearch h env now (env.PathEscape req.Title) req.GEO).result =
        SearchResult.items items →
      (∀ pre item post, items = pre ++ item :: post →
        (∀ x ∈ pre, x.Title ≠ req.Title) → item.Title = req.Title →
        (LookupTitle h env now (Except.ok req)).answer =
          Answer.response
            ⟨if item.PackageName = "" then 204 else 200, "", item.PackageName, "", ""⟩) ∧
      ((∀ x ∈ items, x.Title ≠ req.Title) →
        (LookupTitle h env now (Except.ok req)).answer =
          Answer.response ⟨204, "", "", "", ""⟩)) ∧
    (h.SearchCache.GetNotStale now ("pkgname:" ++ req.PackageName ++ ":" ++ req.GEO) = none →
      (googleplaySearch h env now req.PackageName req.GEO).result =
        SearchResult.items items →
      (∀ pre item post, items = pre ++ item :: post →
        (∀ x ∈ pre, x.PackageName ≠ req.PackageName) → item.PackageName = req.PackageName →
        (LookupPackageName h env now (Except.ok req)).answer =
          Answer.response ⟨if item.Title = "" then 204 else 200, "", "", item.Title, ""⟩) ∧
      ((∀ x ∈ items, x.PackageName ≠ req.PackageName) →
        (LookupPackageName h env now (Except.ok req)).answer =
          Answer.response ⟨204, "", "", "", ""⟩)) := by
  constructor
  · intro hmiss hsearch
    constructor
    · intro pre item post hsplit hpre hitem
      have hfind : items.find? (fun i => i.Title == req.Title) = some item := by
        rw [hsplit]
        exact find?_first _ pre item post (fun y hy => by simpa using hpre y hy)
          (by simpa using hitem)
      simp only [LookupTitle, hmiss, hsearch, hfind]
    · intro hall
      have hfind : items.find? (fun i => i.Title == req.Title) = none :=
        find?_none_of_all _ items (fun y hy => by simpa using hall y hy)
      simp only [LookupTitle, hmiss, hsearch, hfind]
  · intro hmiss hsearch
    constructor
    · intro pre item post hsplit hpre hitem
      have hfind : items.find? (fun i => i.PackageName == req.PackageName) = some item := by
        rw [hsplit]
        exact find?_first _ pre item post (fun y hy => by simpa using hpre y hy)
          (by simpa using hitem)
      simp only [LookupPackageName, hmiss, hsearch, hfind]
    · intro hall
      have hfind : items.find? (fun i => i.PackageName == req.PackageName) = none :=
        find?_none_of_all _ items (fun y hy => by simpa using hall y hy)
      simp only [LookupPackageName, hmiss, hsearch, hfind]

/-- C14, amended, on a search that returns `(com.a, X)` and `(com.b, X)`: the
title `X` is answered with status 200 and `com.a`. -/
theorem C14_lookup_witness :
    twoHitsHandler.SearchCache.GetNotStale 0 ("title:" ++ "X" ++ ":" ++ "US") = none ∧
    (googleplaySearch twoHitsHandler samplePlay 0 "X" "US").result =
      SearchResult.items [⟨"com.a", "X"⟩, ⟨"com.b", "X"⟩] ∧
    (LookupTitle twoHitsHandler samplePlay 0 (Except.ok ⟨"", "X", "US"⟩)).answer =
      Answer.response ⟨200, "", "com.a", "", ""⟩ :=
  ⟨by decide, by decide,
    ((C14_lookup_answers_first_match twoHitsHandler samplePlay 0 ⟨"", "X", "US"⟩
      [⟨"com.a", "X"⟩, ⟨"com.b", "X"⟩]).1 (by decide) (by decide)).1 [] ⟨"com.a", "X"⟩
      [⟨"com.b", "X"⟩] rfl (by simp) rfl⟩

/-- A failed GET makes `googleplaySearch` return the error and leave the
handler as it was. -/
theorem googleplaySearch_failure (h : LookupHandler) (env : Play) (now : Nat)
    (query lang msg : String)
    (hmiss : h.SearchCache.GetNotStale now (query ++ lang) = none)
    (hfail : (env.get query lang).failure = some msg) :
    (googleplaySearch h env now query lang).result = SearchResult.error msg ∧
    (googleplaySearch h env now query lang).after = h ∧
    (googleplaySearch h env now query lang).fetched =
      (if (env.get query lang).sent = true then [(query, lang)] else []) := by
  unfold googleplaySearch
  simp only [hmiss]
  cases hg : env.get query lang with
  | requestError m =>
    rw [hg] at hfail
    simp only [Fetch.failure, Option.some.injEq] at hfail
    subst hfail
    exact ⟨rfl, rfl, rfl⟩
  | roundTripError m =>
    rw [hg] at hfail
    simp only [Fetch.failure, Option.some.injEq] at hfail
    subst hfail
    exact ⟨rfl, rfl, rfl⟩
  | readError m =>
    rw [hg] at hfail
    simp only [Fetch.failure, Option.some.injEq] at hfail
    subst hfail
    exact ⟨rfl, rfl, rfl⟩
  | body data =>
    rw [hg] at hfail
    simp [Fetch.failure] at hfail

/-- A failed GET, or a body the expression does not match, makes the single
caller's `ipinfoSearch` return the error. -/
theorem ipinfoSearchOnce_failure (h : IpinfoHandler) (fetch : Fetch) (msg : String)
    (hfail : fetch.failure = some msg ∨
      ∃ data, fetch = Fetch.body data ∧ h.Regex data = none ∧ msg = "empty") :
    ipinfoSearchOnce h fetch = SearchReturn.error msg := by
  rcases hfail with hfail | ⟨data, rfl, hre, rfl⟩
  · cases fetch with
    | requestError m =>
      simp only [Fetch.failure, Option.some.injEq] at hfail
      subst hfail
      rfl
    | roundTripError m =>
      simp only [Fetch.failure, Option.some.injEq] at hfail
      subst hfail
      rfl
    | readError m =>
      simp only [Fetch.failure, Option.some.injEq] at hfail
      subst hfail
      rfl
    | body data => simp [Fetch.failure] at hfail
  · simp [ipinfoSearchOnce, ipinfoSearch, ReadAll, hre]

/-- C15. For every request whose upstream fetch fails (the request cannot be
built, the round trip or the body read returns an error, or for `Ipinfo` the
expression matches nothing), `Ipinfo`, `LookupTitle` and `LookupPackageName`
answer with the error set and leave the handler, with its cache, exactly as it
was; the next identical request therefore meets the same misses and fetches
again. -/
theorem C15_failed_fetch_not_cached :
    (∀ (h : IpinfoHandler) (get : String → Fetch) (now : Nat) (ipStr msg : String),
      (∀ e, h.Cache ("ipinfo:" ++ ipStr) = some e → ¬ now < e.2) →
      ((get ipStr).failure = some msg ∨
        ∃ data, get ipStr = Fetch.body data ∧ h.Regex data = none ∧ msg = "empty") →
      (Ipinfo h get now ipStr).answer = some ⟨msg, "", ""⟩ ∧
      (Ipinfo h get now ipStr).after = h ∧
      (Ipinfo h get now ipStr).fetched =
        (if (get ipStr).sent = true then [ipStr] else []) ∧
      (Ipinfo (Ipinfo h get now ipStr).after get now ipStr).fetched =
        (Ipinfo h get now ipStr).fetched) ∧
    (∀ (h : LookupHandler) (env : Play) (now : Nat) (req : LookupRequest) (msg : String),
      h.SearchCache.GetNotStale now ("title:" ++ req.Title ++ ":" ++ req.GEO) = none →
      h.SearchCache.GetNotStale now (env.PathEscape req.Title ++ req.GEO) = none →
      (env.get (env.PathEscape req.Title) req.GEO).failure = some msg →
      (LookupTitle h env now (Except.ok req)).answer =
        Answer.response ⟨204, msg, "", "", ""⟩ ∧
      (LookupTitle h env now (Except.ok req)).after = h ∧
      (LookupTitle h env now (Except.ok req)).fetched =
        (if (env.get (env.PathEscape req.Title) req.GEO).sent = true
          then [(env.PathEscape req.Title, req.GEO)] else []) ∧
      (LookupTitle (LookupTitle h env now (Except.ok req)).after env now
          (Except.ok req)).fetched =
        (LookupTitle h env now (Except.ok req)).fetched) ∧
    (∀ (h : LookupHandler) (env : Play) (now : Nat) (req : LookupRequest) (msg : String),
      h.SearchCache.GetNotStale now ("pkgname:" ++ req.PackageName ++ ":" ++ req.GEO) = none →
      h.SearchCache.GetNotStale now (req.PackageName ++ req.GEO) = none →
      (env.get req.PackageName req.GEO).failure = some msg →
      (LookupPackageName h env now (Except.ok req)).answer =
        Answer.response ⟨204, msg, "", "", ""⟩ ∧
      (LookupPackageName h env now (Except.ok req)).after = h ∧
      (LookupPackageName h env now (Except.ok req)).fetched =
        (if (env.get req.PackageName req.GEO).sent = true
          then [(req.PackageName, req.GEO)] else []) ∧
      (LookupPackageName (LookupPackageName h env now (Except.ok req)).after env now
          (Except.ok req)).fetched =
        (LookupPackageName h env now (Except.ok req)).fetched) := by
  refine ⟨?_, ?_, ?_⟩
  · intro h get now ipStr msg hmiss hfail
    have hs := ipinfoSearchOnce_failure h (get ipStr) msg hfail
    have hfresh : (match h.Cache ("ipinfo:" ++ ipStr) with
        | some e => if now < e.2 then some e.1 else none
        | none => none) = none := by
      cases hc : h.Cache ("ipinfo:" ++ ipStr) with
      | none => rfl
      | some e => simp [hmiss e hc]
    have hrun : Ipinfo h get now ipStr =
        ⟨some ⟨msg, "", ""⟩, h, if (get ipStr).sent = true then [ipStr] else []⟩ := by
      simp only [Ipinfo, hfresh, hs]
    rw [hrun]
    exact ⟨rfl, rfl, rfl, by rw [hrun]⟩
  · intro h env now req msg hmiss1 hmiss2 hfail
    obtain ⟨h1, h2, h3⟩ := googleplaySearch_failure h env now _ _ msg hmiss2 hfail
    have hrun : LookupTitle h env now (Except.ok req) =
        ⟨Answer.response ⟨204, msg, "", "", ""⟩, h,
          if (env.get (env.PathEscape req.Title) req.GEO).sent = true
            then [(env.PathEscape req.Title, req.GEO)] else []⟩ := by
      simp only [LookupTitle, hmiss1, h1, h2, h3, LookupHandler.Error]
    rw [hrun]
    exact ⟨rfl, rfl, rfl, by rw [hrun]⟩
  · intro h env now req msg hmiss1 hmiss2 hfail
    obtain ⟨h1, h2, h3⟩ := googleplaySearch_failure h env now _ _ msg hmiss2 hfail
    have hrun : LookupPackageName h env now (Except.ok req) =
        ⟨Answer.response ⟨204, msg, "", "", ""⟩, h,
          if (env.get req.PackageName req.GEO).sent = true
            then [(req.PackageName, req.GEO)] else []⟩ := by
      simp only [LookupPackageName, hmiss1, h1, h2, h3, LookupHandler.Error]
    rw [hrun]
    exact ⟨rfl, rfl, rfl, by rw [hrun]⟩

/-- C15 at an `/ipinfo` request whose body the expression does not match and at
a title lookup whose round trip fails. -/
theorem C15_failed_fetch_witness :
    (Ipinfo sampleIpinfo (fun _ => Fetch.body "nothing") 0 "8.8.8.8").answer =
      some ⟨"empty", "", ""⟩ ∧
    (Ipinfo sampleIpinfo (fun _ => Fetch.body "nothing") 0 "8.8.8.8").fetched = ["8.8.8.8"] ∧
    (LookupTitle noHitHandler downPlay 0 (Except.ok ⟨"", "X", "US"⟩)).answer =
      Answer.response ⟨204, "connection refused", "", "", ""⟩ ∧
    (LookupTitle noHitHandler downPlay 0 (Except.ok ⟨"", "X", "US"⟩)).after = noHitHandler :=
  have h1 := C15_failed_fetch_not_cached.1 sampleIpinfo (fun _ => Fetch.body "nothing") 0
    "8.8.8.8" "empty" (by intro e he; simp [sampleIpinfo] at he)
    (Or.inr ⟨"nothing", rfl, by decide, rfl⟩)
  have h2 := C15_failed_fetch_not_cached.2.1 noHitHandler downPlay 0 ⟨"", "X", "US"⟩
    "connection refused" (by decide) (by decide) (by decide)
  ⟨h1.1, h1.2.2.1, h2.1, h2.2.1⟩

/-- C17 fails on the code: a package-name lookup for the package `title:X:`
and the language `US` makes `googleplaySearch` store its item list under the
search key `title:X:US`; that is the request key of the title lookup for `X`
and `US`, whose type assertion to a string then panics. In the other order the
title lookup stores a string under `title:X:US` and the type assertion to an
item list in `googleplaySearch` panics. -/
theorem C17_key_families_collide :
    "title:X:" ++ "US" = "title:" ++ "X" ++ ":" ++ "US" ∧
    (LookupPackageName noHitHandler samplePlay 0 (Except.ok ⟨"title:X:", "", "US"⟩)).answer =
      Answer.response ⟨204, "", "", "", ""⟩ ∧
    (LookupTitle
        (LookupPackageName noHitHandler samplePlay 0 (Except.ok ⟨"title:X:", "", "US"⟩)).after
        samplePlay 0 (Except.ok ⟨"", "X", "US"⟩)).answer =
      Answer.crash "interface conversion: interface \x7b\x7d is []main.GoogleplaySearchItem" ∧
    (LookupTitle twoHitsHandler samplePlay 0 (Except.ok ⟨"", "X", "US"⟩)).answer =
      Answer.response ⟨200, "", "com.a", "", ""⟩ ∧
    (LookupPackageName
        (LookupTitle twoHitsHandler samplePlay 0 (Except.ok ⟨"", "X", "US"⟩)).after
        samplePlay 1 (Except.ok ⟨"title:X:", "", "US"⟩)).answer =
      Answer.crash "interface conversion: interface \x7b\x7d is string" := by
  refine ⟨by decide, by decide, by decide, by decide, by decide⟩

/-- The loop on a non-empty sequence of slices: it never indexes out of range,
fills the destination with the first bytes of the concatenation, as many as fit
or as there are, and leaves the remaining bytes in their order in a sequence
that is nil or not empty. -/
theorem readLoop_spec : ∀ (bufs : List (List Nat)), bufs ≠ [] →
    ∀ (out b : List Nat) (total : Nat), ∃ c : ConnWithBuffers,
      readLoop bufs out b total =
        ReadReturn.done (total + min b.length bufs.flatten.length) none
          (out ++ bufs.flatten.take (min b.length bufs.flatten.length) ++
            b.drop (min b.length bufs.flatten.length)) c ∧
      (c.Buffers.getD []).flatten = bufs.flatten.drop (min b.length bufs.flatten.length) ∧
      c.Buffers ≠ some [] := by
  intro bufs
  induction bufs with
  | nil => intro h; exact absurd rfl h
  | cons buf rest ih =>
    intro _ out b total
    unfold readLoop
    simp only [List.flatten_cons, List.length_append]
    by_cases h1 : min b.length buf.length < buf.length
    · have hb : b.length < buf.length := by
        rcases Nat.lt_or_ge b.length buf.length with h | h
        · exact h
        · rw [Nat.min_eq_right h] at h1; omega
      have hmin1 : min b.length buf.length = b.length := Nat.min_eq_left (by omega)
      have hmin2 : min b.length (buf.length + rest.flatten.length) = b.length :=
        Nat.min_eq_left (by omega)
      refine ⟨⟨some (buf.drop b.length :: rest)⟩, ?_, ?_, by simp⟩
      · simp only [hmin1, hmin2, hb, if_true]
        rw [List.take_append_of_le_length (by omega)]
      · simp only [hmin2, Option.getD_some, List.flatten_cons]
        rw [List.drop_append_of_le_length (by omega)]
    · have hb : buf.length ≤ b.length := by
        rcases Nat.lt_or_ge b.length buf.length with h | h
        · rw [Nat.min_eq_left (by omega)] at h1; omega
        · exact h
      have hmin1 : min b.length buf.length = buf.length := Nat.min_eq_right hb
      simp only [hmin1, Nat.lt_irrefl, if_false, List.take_length]
      by_cases h2 : rest.length = 0
      · have hrest : rest = [] := List.length_eq_zero.1 h2
        subst hrest
        have hmin2 : min b.length (buf.length + ([] : List (List Nat)).flatten.length) =
            buf.length := by
          simp only [List.flatten_nil, List.length_nil, Nat.add_zero]
          exact Nat.min_eq_right hb
        refine ⟨⟨none⟩, ?_, ?_, by simp⟩
        · simp only [List.length_nil, if_true, hmin2]
          simp
        · simp only [hmin2]
          simp
      · simp only [h2, if_false]
        by_cases h3 : (b.drop buf.length).length = 0
        · have hbl : b.length = buf.length := by
            simp only [List.length_drop] at h3
            omega
          have hmin2 : min b.length (buf.length + rest.flatten.length) = buf.length := by
            rw [hbl]
            exact Nat.min_eq_left (by omega)
          refine ⟨⟨some rest⟩, ?_, ?_, ?_⟩
          · simp only [h3, if_true, hmin2]
            simp
          · simp only [hmin2, Option.getD_some]
            simp
          · intro hc
            simp only [Option.some.injEq] at hc
            rw [hc] at h2
            exact h2 rfl
        · simp only [h3, if_false]
          have hrne : rest ≠ [] := fun h0 => h2 (by rw [h0]; rfl)
          obtain ⟨c, hc1, hc2, hc3⟩ := ih hrne (out ++ buf) (b.drop buf.length)
            (total + buf.length)
          have hmin2 : min b.length (buf.length + rest.flatten.length) =
              buf.length + min (b.drop buf.length).length rest.flatten.length := by
            simp only [List.length_drop]
            omega
          refine ⟨c, ?_, ?_, hc3⟩
          · rw [hc1, hmin2]
            have e1 : (buf ++ rest.flatten).take
                (buf.length + min (b.drop buf.length).length rest.flatten.length) =
                buf ++ rest.flatten.take (min (b.drop buf.length).length rest.flatten.length) := by
              rw [List.take_append]
            have e2 : b.drop (buf.length + min (b.drop buf.length).length rest.flatten.length) =
                (b.drop buf.length).drop (min (b.drop buf.length).length rest.flatten.length) := by
              rw [List.drop_drop, Nat.add_comm]
            rw [e1, e2]
            simp [Nat.add_assoc]
          · rw [hc2, hmin2]
            rw [List.drop_append]

/-- C18 fails as stated: on a non-nil `Buffers` of length zero `Read` indexes
`c.Buffers[0]` and panics; and when the destination fills exactly at the end of
a slice that is followed by an empty slice, no byte remains but `Buffers` is
left holding the empty slice instead of nil. -/
theorem C18_counterexample :
    ConnWithBuffers.Read ⟨some []⟩ idleConn [0, 0] =
      ReadReturn.crash "index out of range [0] with length 0" ∧
    ConnWithBuffers.Read ⟨some [[1, 2], []]⟩ idleConn [0, 0] =
      ReadReturn.done 2 none [1, 2] ⟨some [[]]⟩ := by
  refine ⟨by decide, by decide⟩

/-- C18, amended. For every `Buffers` that holds at least one slice (empty
slices included) and every destination `b`, `Read` does not panic, returns a
nil error and `total = min(len(b), bytes in Buffers)`, writes the first `total`
bytes of the concatenation of `Buffers` into `b[:total]` and leaves the rest
of `b` alone, and leaves `Buffers` holding exactly the remaining bytes in
their order, as nil or as a sequence of at least one slice. -/
theorem C18_Read_delivers_buffered_bytes (bufs : List (List Nat))
    (connRead : List Nat → ReadReturn) (b : List Nat) (hne : bufs ≠ []) :
    ∃ c : ConnWithBuffers,
      ConnWithBuffers.Read ⟨some bufs⟩ connRead b =
        ReadReturn.done (min b.length bufs.flatten.length) none
          (bufs.flatten.take (min b.length bufs.flatten.length) ++
            b.drop (min b.length bufs.flatten.length)) c ∧
      (c.Buffers.getD []).flatten = bufs.flatten.drop (min b.length bufs.flatten.length) ∧
      c.Buffers ≠ some [] := by
  obtain ⟨c, h1, h2, h3⟩ := readLoop_spec bufs hne [] b 0
  refine ⟨c, ?_, h2, h3⟩
  simp only [ConnWithBuffers.Read, h1]
  simp

/-- C18, amended, at the slices `[1, 2]`, `[]`, `[3]` and a destination of two
bytes: two bytes are delivered and the empty slice and `[3]` remain. -/
theorem C18_Read_witness :
    ([[1, 2], [], [3]] : List (List Nat)) ≠ [] ∧
    ConnWithBuffers.Read ⟨some [[1, 2], [], [3]]⟩ idleConn [0, 0] =
      ReadReturn.done 2 none [1, 2] ⟨some [[], [3]]⟩ ∧
    ∃ c : ConnWithBuffers,
      ConnWithBuffers.Read ⟨some [[1, 2], [], [3]]⟩ idleConn [0, 0] =
        ReadReturn.done (min 2 3) none ([1, 2, 3].take (min 2 3) ++ [0, 0].drop (min 2 3)) c ∧
      (c.Buffers.getD []).flatten = [1, 2, 3].drop (min 2 3) ∧
      c.Buffers ≠ some [] :=
  ⟨by decide, by decide,
    C18_Read_delivers_buffered_bytes [[1, 2], [], [3]] idleConn [0, 0] (by decide)⟩

/-- C16 fails on the code: the comment of the case for `211.98.70.x` names
`211.98.70.225`, for which the branches return false, and the case label
matches `211.98.70.226`, which no comment names. On every other address named
in a comment the branches return true, and a 16-byte IPv6 address is not
classified. -/
theorem C16_branches_differ_from_comments :
    [211, 98, 70, 225] ∈ pollutionComments ∧ IsPollutionIP [211, 98, 70, 225] = false ∧
    [211, 98, 70, 226] ∉ pollutionComments ∧ IsPollutionIP [211, 98, 70, 226] = true ∧
    (pollutionComments.filter (fun ip => !IsPollutionIP ip)) = [[211, 98, 70, 225]] ∧
    pollutionCoded.all IsPollutionIP = true ∧
    IsPollutionIP ip6a = false := by
  refine ⟨by decide, by decide, by decide, by decide, by decide, by decide, by decide⟩

set_option maxHeartbeats 1000000 in
/-- Every address for which the branches return true is a member of
`pollutionCoded`. -/
theorem IsPollutionIP_sound (b0 b1 b2 b3 : Nat)
    (h : IsPollutionIP [b0, b1, b2, b3] = true) : [b0, b1, b2, b3] ∈ pollutionCoded := by
  have h4 : To4 [b0, b1, b2, b3] = some [b0, b1, b2, b3] := by simp [To4]
  unfold IsPollutionIP at h
  rw [h4] at h
  simp only at h
  split at h
  all_goals (try split at h)
  all_goals (try split at h)
  all_goals (try split at h)
  all_goals first
    | exact Bool.noConfusion h
    | (simp only [Bool.and_eq_true, decide_eq_true_eq] at h
       obtain ⟨⟨rfl, rfl⟩, rfl⟩ := h
       decide)
    | (simp only [Bool.and_eq_true, decide_eq_true_eq] at h
       obtain ⟨rfl, rfl⟩ := h
       decide)
    | (simp only [decide_eq_true_eq] at h
       subst h
       decide)
    | (simp only [Bool.or_eq_true, decide_eq_true_eq] at h
       rcases h with rfl | rfl <;> decide)
    | decide

/-- On a four-byte address the branches of `IsPollutionIP` return true exactly
for the members of `pollutionCoded`. -/
theorem IsPollutionIP_four_bytes (b0 b1 b2 b3 : Nat) :
    IsPollutionIP [b0, b1, b2, b3] = decide ([b0, b1, b2, b3] ∈ pollutionCoded) := by
  have hall : pollutionCoded.all IsPollutionIP = true := by decide
  rw [Bool.eq_iff_iff, decide_eq_true_eq]
  constructor
  · exact IsPollutionIP_sound b0 b1 b2 b3
  · intro hmem
    exact List.all_eq_true.1 hall _ hmem

/-- Dropping leading spaces changes nothing in a text without spaces. -/
theorem dropWhile_no_space (l : List Char) (h : ∀ c ∈ l, isSpace c = false) :
    l.dropWhile isSpace = l := by
  cases l with
  | nil => rfl
  | cons c l =>
    have hc : ¬ (isSpace c = true) := by simp [h c (by simp)]
    exact List.dropWhile_cons_of_neg hc

/-- Trimming changes nothing in a text without spaces. -/
theorem TrimSpace_no_space (w : List Char) (h : ∀ c ∈ w, isSpace c = false) :
    TrimSpace w = w := by
  unfold TrimSpace
  rw [dropWhile_no_space w h, dropWhile_no_space w.reverse (fun c hc => h c (by simpa using hc))]
  exact List.reverse_reverse w

/-- The fields of a text contain no space. -/
theorem fieldsLoop_no_space : ∀ (l cur : List Char), (∀ c ∈ cur, isSpace c = false) →
    ∀ w ∈ fieldsLoop l cur, ∀ c ∈ w, isSpace c = false := by
  intro l
  induction l with
  | nil =>
    intro cur hcur w hw c hc
    unfold fieldsLoop at hw
    split at hw
    · simp at hw
    · simp only [List.mem_singleton] at hw
      subst hw
      exact hcur c (by simpa using hc)
  | cons x l ih =>
    intro cur hcur w hw c hc
    unfold fieldsLoop at hw
    split at hw
    · split at hw
      · exact ih [] (by simp) w hw c hc
      · rcases List.mem_cons.1 hw with rfl | hw
        · exact hcur c (by simpa using hc)
        · exact ih [] (by simp) w hw c hc
    · rename_i hx
      refine ih (x :: cur) ?_ w hw c hc
      intro d hd
      rcases List.mem_cons.1 hd with rfl | hd
      · simpa using hx
      · exact hcur d hd

/-- Trimming a field gives the field. -/
theorem TrimSpace_field (s w : List Char) (hw : w ∈ Fields s) : TrimSpace w = w :=
  TrimSpace_no_space w (fieldsLoop_no_space s [] (by simp) w hw)

/-- Assigning `[ip]` to a sequence of names, one after the other, is the map
that answers `[ip]` on these names and is unchanged elsewhere. -/
theorem foldl_setStatic (f : List Char → String) (ip : IP) :
    ∀ (names : List (List Char)) (m : String → Option (List IP)),
      names.foldl (fun acc name => setStatic acc (f name) ip) m =
        fun k => if k ∈ names.map f then some [ip] else m k := by
  intro names
  induction names with
  | nil => intro m; funext k; simp
  | cons n names ih =>
    intro m
    rw [List.foldl_cons, ih]
    funext k
    simp only [setStatic, List.map_cons, List.mem_cons]
    by_cases h1 : k ∈ names.map f
    · simp [h1]
    · by_cases h2 : k = f n
      · simp [h2]
      · simp [h1, h2]

/-- The loop body does to the map what the specification says for the line. -/
theorem addHostsLine_eq_specLine (parseIP : String → Option IP)
    (m : String → Option (List IP)) (line : List Char) :
    addHostsLine parseIP m line = specLine parseIP m line := by
  unfold addHostsLine specLine
  simp only
  by_cases hs : cutComment (TrimSpace line) = []
  · simp [hs, Fields, fieldsLoop]
  · simp only [hs, if_false]
    have hfield := TrimSpace_field (cutComment (TrimSpace line))
    generalize Fields (cutComment (TrimSpace line)) = words at hfield
    match words, hfield with
    | [], _ => simp
    | [_], _ => simp
    | w0 :: w1 :: more, hfield =>
      have h0 : TrimSpace w0 = w0 := hfield w0 (by simp)
      have hlen : ¬ ((w0 :: w1 :: more).length < 2) := by simp
      simp only [hlen, if_false, h0]
      cases parseIP (String.mk w0) with
      | none => rfl
      | some ip =>
        simp only
        rw [foldl_setStatic (fun name => String.mk (TrimSpace name)) ip (w1 :: more) m]
        have hmap : (w1 :: more).map (fun name => String.mk (TrimSpace name)) =
            (w1 :: more).map String.mk := by
          apply List.map_congr_left
          intro n hn
          rw [hfield n (List.mem_cons_of_mem _ hn)]
        rw [hmap]

/-- When every raw line fits the scanner's buffer the scan reaches the end of
the text without error, having applied the loop body line by line. -/
theorem scanLoop_short_lines (parseIP : String → Option IP) :
    ∀ (lines : List (List Char)) (m : String → Option (List IP)),
      (∀ raw ∈ lines, byteLen raw < MaxScanTokenSize) →
      scanLoop parseIP lines m = ((lines.map dropCR).foldl (specLine parseIP) m, none) := by
  intro lines
  induction lines with
  | nil => intro m _; rfl
  | cons raw rest ih =>
    intro m h
    have hraw : ¬ (MaxScanTokenSize ≤ byteLen raw) := Nat.not_le.2 (h raw (by simp))
    unfold scanLoop
    simp only [hraw, if_false, List.map_cons, List.foldl_cons]
    rw [ih _ (fun r hr => h r (List.mem_cons_of_mem _ hr)), addHostsLine_eq_specLine]

/-- A raw line that ends in a newline is cut off as it stands. -/
theorem splitLinesLoop_first_line : ∀ (pre cur rest : List Char) (nl : Char),
    nl.toNat = 10 → (∀ c ∈ pre, c.toNat ≠ 10) →
    splitLinesLoop (pre ++ nl :: rest) cur = (cur.reverse ++ pre) :: splitLinesLoop rest [] := by
  intro pre
  induction pre with
  | nil =>
    intro cur rest nl hnl _
    simp [splitLinesLoop, hnl]
  | cons c pre ih =>
    intro cur rest nl hnl hpre
    have hc : c.toNat ≠ 10 := hpre c (by simp)
    have hrec := ih (c :: cur) rest nl hnl (fun d hd => hpre d (List.mem_cons_of_mem _ hd))
    rw [List.cons_append, splitLinesLoop]
    simp only [hc, if_false]
    rw [hrec]
    simp

/-- A run of `n` letters `a` has `n` bytes. -/
theorem byteLen_replicate_a (n : Nat) : byteLen (List.replicate n (Char.ofNat 97)) = n := by
  induction n with
  | zero => rfl
  | succ n ih =>
    have h1 : (Char.ofNat 97).utf8Size = 1 := by decide
    simp only [byteLen, List.replicate_succ, List.map_cons, List.sum_cons, h1] at ih ⊢
    omega

/-- C13 fails as stated: a first line of 65536 bytes does not fit the
scanner's buffer; the scan ends there, `AddStaticHosts` returns the scanner's
error, and the well-formed entry on the second line is not applied. -/
theorem C13_counterexample :
    (AddStaticHosts hostsResolver longLineHosts).2 = some "bufio.Scanner: token too long" ∧
    (AddStaticHosts hostsResolver longLineHosts).1.staticGet "a.test" = none := by
  have hsplit : splitLines longLineHosts.data =
      List.replicate 65536 (Char.ofNat 97) :: splitLinesLoop "1.2.3.4 a.test\n".data [] := by
    have h := splitLinesLoop_first_line (List.replicate 65536 (Char.ofNat 97)) []
      "1.2.3.4 a.test\n".data (Char.ofNat 10) (by decide)
      (fun c hc => by rw [List.eq_of_mem_replicate hc]; decide)
    have hdata : longLineHosts.data =
        List.replicate 65536 (Char.ofNat 97) ++ Char.ofNat 10 :: "1.2.3.4 a.test\n".data := rfl
    simp only [List.reverse_nil, List.nil_append] at h
    rw [splitLines, hdata, h]
  have hlong : MaxScanTokenSize ≤ byteLen (List.replicate 65536 (Char.ofNat 97)) := by
    rw [byteLen_replicate_a]
    decide
  have hscan : scanLoop hostsResolver.ParseIP (splitLines longLineHosts.data) (fun _ => none) =
      (fun _ => none, some "bufio.Scanner: token too long") := by
    rw [hsplit, scanLoop]
    simp only [hlong, if_true]
  have hrun : AddStaticHosts hostsResolver longLineHosts =
      ({ hostsResolver with static := some (fun _ => none) },
        some "bufio.Scanner: token too long") := by
    unfold AddStaticHosts
    simp only [hostsResolver, bareResolver] at hscan ⊢
    rw [hscan]
  rw [hrun]
  exact ⟨rfl, rfl⟩

/-- When the first raw line that does not fit the scanner's buffer comes after
lines that fit, the scan applies the loop body to the lines before it and ends
there with the scanner's error. -/
theorem scanLoop_long_line (parseIP : String → Option IP) :
    ∀ (pre : List (List Char)) (long : List Char) (rest : List (List Char))
      (m : String → Option (List IP)),
      (∀ raw ∈ pre, byteLen raw < MaxScanTokenSize) → MaxScanTokenSize ≤ byteLen long →
      scanLoop parseIP (pre ++ long :: rest) m =
        ((pre.map dropCR).foldl (specLine parseIP) m, some "bufio.Scanner: token too long") := by
  intro pre
  induction pre with
  | nil =>
    intro long rest m _ hlong
    simp only [List.nil_append, scanLoop, hlong, if_true, List.map_nil, List.foldl_nil]
  | cons raw pre ih =>
    intro long rest m h hlong
    have hraw : ¬ (MaxScanTokenSize ≤ byteLen raw) := Nat.not_le.2 (h raw (by simp))
    have hrec := ih long rest (addHostsLine parseIP m (dropCR raw))
      (fun r hr => h r (List.mem_cons_of_mem _ hr)) hlong
    rw [List.cons_append, scanLoop]
    simp only [hraw, if_false, List.map_cons, List.foldl_cons]
    rw [hrec, addHostsLine_eq_specLine]

/-- C13, amended. For every input text all of whose lines are shorter than
65536 bytes, `AddStaticHosts` returns no error and leaves the static map equal
to the previous map updated line by line, in input order: a line that, trimmed
and cut at the first `#`, has at least two fields of which the first parses as
an IP maps every following field to `[ip]`; every other line changes nothing.
When a line of 65536 bytes or more comes after lines that are shorter, the
lines before it are applied in the same way, the lines after it are not, and
the scanner's error is returned. -/
theorem C13_AddStaticHosts_line_by_line (r : Resolver) (text : String) :
    ((∀ raw ∈ splitLines text.data, byteLen raw < MaxScanTokenSize) →
      (AddStaticHosts r text).2 = none ∧
      (AddStaticHosts r text).1 =
        { r with static := some (specHosts r.ParseIP
            (match r.static with
              | some m => m
              | none => fun _ => none) text) }) ∧
    (∀ (pre : List (List Char)) (long : List Char) (rest : List (List Char)),
      splitLines text.data = pre ++ long :: rest →
      (∀ raw ∈ pre, byteLen raw < MaxScanTokenSize) → MaxScanTokenSize ≤ byteLen long →
      (AddStaticHosts r text).2 = some "bufio.Scanner: token too long" ∧
      (AddStaticHosts r text).1 =
        { r with static := some ((pre.map dropCR).foldl (specLine r.ParseIP)
            (match r.static with
              | some m => m
              | none => fun _ => none)) }) := by
  constructor
  · intro hshort
    unfold AddStaticHosts
    simp only
    rw [scanLoop_short_lines r.ParseIP _ _ hshort]
    exact ⟨rfl, rfl⟩
  · intro pre long rest hsplit hpre hlong
    unfold AddStaticHosts
    simp only
    rw [hsplit, scanLoop_long_line r.ParseIP pre long rest _ hpre hlong]
    exact ⟨rfl, rfl⟩

/-- C13, amended, on the sample text: no error, and exactly the two entries
`a.test -> [1.2.3.4]` and `b.test -> [1.2.3.4]`; and on a text whose second
line has 65536 bytes: the scanner's error, the entry of the first line applied
and the entry of the third line not. -/
theorem C13_AddStaticHosts_witness :
    (∀ raw ∈ splitLines sampleHosts.data, byteLen raw < MaxScanTokenSize) ∧
    (AddStaticHosts hostsResolver sampleHosts).2 = none ∧
    (AddStaticHosts hostsResolver sampleHosts).1.staticGet "a.test" =
      some [[0, 0, 0, 0, 0, 0, 0, 0, 0, 0, 255, 255, 1, 2, 3, 4]] ∧
    (AddStaticHosts hostsResolver sampleHosts).1.staticGet "b.test" =
      some [[0, 0, 0, 0, 0, 0, 0, 0, 0, 0, 255, 255, 1, 2, 3, 4]] ∧
    (∀ k, k ≠ "a.test" → k ≠ "b.test" →
      (AddStaticHosts hostsResolver sampleHosts).1.staticGet k = none) ∧
    (AddStaticHosts hostsResolver lateLongLineHosts).2 =
      some "bufio.Scanner: token too long" ∧
    (AddStaticHosts hostsResolver lateLongLineHosts).1.staticGet "a.test" =
      some [[0, 0, 0, 0, 0, 0, 0, 0, 0, 0, 255, 255, 1, 2, 3, 4]] ∧
    (AddStaticHosts hostsResolver lateLongLineHosts).1.staticGet "b.test" = none := by
  have hshort : ∀ raw ∈ splitLines sampleHosts.data, byteLen raw < MaxScanTokenSize := by
    decide
  have h := (C13_AddStaticHosts_line_by_line hostsResolver sampleHosts).1 hshort
  have hsplit : splitLines lateLongLineHosts.data =
      ["1.2.3.4 a.test".data] ++ List.replicate 65536 (Char.ofNat 97) ::
        splitLinesLoop "1.2.3.4 b.test\n".data [] := by
    have hdata : lateLongLineHosts.data = "1.2.3.4 a.test".data ++ Char.ofNat 10 ::
        (List.replicate 65536 (Char.ofNat 97) ++ Char.ofNat 10 :: "1.2.3.4 b.test\n".data) :=
      rfl
    have h1 := splitLinesLoop_first_line "1.2.3.4 a.test".data []
      (List.replicate 65536 (Char.ofNat 97) ++ Char.ofNat 10 :: "1.2.3.4 b.test\n".data)
      (Char.ofNat 10) (by decide) (by decide)
    have h2 := splitLinesLoop_first_line (List.replicate 65536 (Char.ofNat 97)) []
      "1.2.3.4 b.test\n".data (Char.ofNat 10) (by decide)
      (fun c hc => by rw [List.eq_of_mem_replicate hc]; decide)
    simp only [List.reverse_nil, List.nil_append] at h1 h2
    rw [splitLines, hdata, h1, h2]
    rfl
  have hlong : MaxScanTokenSize ≤ byteLen (List.replicate 65536 (Char.ofNat 97)) := by
    rw [byteLen_replicate_a]
    decide
  have hl := (C13_AddStaticHosts_line_by_line hostsResolver lateLongLineHosts).2
    ["1.2.3.4 a.test".data] (List.replicate 65536 (Char.ofNat 97))
    (splitLinesLoop "1.2.3.4 b.test\n".data []) hsplit (by decide) hlong
  refine ⟨hshort, h.1, by decide, by decide, ?_, hl.1, ?_, ?_⟩
  · intro k ha hb
    have hlines : (splitLines sampleHosts.data).map dropCR =
        ["1.2.3.4 a.test b.test".data, "# c".data, " bad line".data] := by decide
    have hf1 : Fields (cutComment (TrimSpace "1.2.3.4 a.test b.test".data)) =
        ["1.2.3.4".data, "a.test".data, "b.test".data] := by decide
    have hf2 : Fields (cutComment (TrimSpace "# c".data)) = [] := by decide
    have hf3 : Fields (cutComment (TrimSpace " bad line".data)) =
        ["bad".data, "line".data] := by decide
    have hp1 : sampleParseIP (String.mk "1.2.3.4".data) =
        some [0, 0, 0, 0, 0, 0, 0, 0, 0, 0, 255, 255, 1, 2, 3, 4] := by decide
    have hp3 : sampleParseIP (String.mk "bad".data) = none := by decide
    have hk : k ∉ ["a.test".data, "b.test".data].map String.mk := by
      intro hmem
      simp only [List.map_cons, List.map_nil, List.mem_cons, List.mem_singleton,
        List.not_mem_nil, or_false] at hmem
      rcases hmem with h1 | h1
      · exact ha h1
      · exact hb h1
    rw [h.2]
    simp only [Resolver.staticGet, specHosts, hlines, List.foldl_cons, List.foldl_nil, specLine,
      hf1, hf2, hf3, hostsResolver, bareResolver, hp1, hp3, hk, if_false]
  · rw [hl.2]
    decide
  · rw [hl.2]
    decide

end Apiserver
